import Mathlib

/-!
Verification of the thunderscope-rs host-side acquisition core.

The Rust sources are shallowly embedded: machine integers become `Nat`/`Int`
with explicit wrapping (`% 2^64` for `usize`), `i8` values are `Int`s kept in
range by the embedded saturating operations, byte buffers are `List Nat`,
panics (`assert!`, `unreachable!`) become `Option`, and the device register
protocol is modelled as an explicit event trace.
-/

namespace Thunderscope

/-! ## Ring cursor (src/capture.rs) -/

/-- Modulus of `usize` arithmetic (the target is 64-bit). -/
def USIZE : Nat := 2 ^ 64

/-- RingCursor from src/capture.rs: `index ∈ [0, bound)` tracking a position in
a ring of length `bound`. -/
structure RingCursor where
  index : Nat
  bound : Nat
deriving DecidableEq, Repr

/-- RingCursor::new. -/
def RingCursor.new (bound : Nat) : RingCursor := ⟨0, bound⟩

/-- impl Add<usize> for RingCursor:
`self.index.wrapping_add(offset) % self.bound`.  The wrapping add is the
`usize` sum reduced `% 2^64`; the argument is a `usize`, so theorems assume
`offset < USIZE`. -/
def RingCursor.add (c : RingCursor) (offset : Nat) : RingCursor :=
  ⟨((c.index + offset) % USIZE) % c.bound, c.bound⟩

/-- impl Sub<usize> for RingCursor:
`self.index.wrapping_sub(offset) % self.bound`.  For `index, offset < 2^64`
the wrapping subtraction equals `(index + 2^64 - offset) % 2^64`. -/
def RingCursor.sub (c : RingCursor) (offset : Nat) : RingCursor :=
  ⟨((c.index + USIZE - offset % USIZE) % USIZE) % c.bound, c.bound⟩

/-! ## Trigger construction (src/trigger.rs) -/

/-- i8::saturating_sub_unsigned: subtract a `u8`, saturating at the `i8`
minimum `-128`. -/
def i8SaturatingSubUnsigned (a : Int) (b : Nat) : Int := max (a - (b : Int)) (-128)

/-- i8::saturating_add_unsigned: add a `u8`, saturating at the `i8`
maximum `127`. -/
def i8SaturatingAddUnsigned (a : Int) (b : Nat) : Int := min (a + (b : Int)) 127

/-- Standard clamp on `Int`, used to state the spec's threshold formulas. -/
def clampInt (x lo hi : Int) : Int := min (max x lo) hi

/-- enum State from src/trigger.rs. -/
inductive State where
  | Fresh
  | Below
  | Above
deriving DecidableEq, Repr

/-- struct Trigger from src/trigger.rs.  `level`, `below`, `above` are `i8`
values, embedded as `Int`. -/
structure Trigger where
  state : State
  level : Int
  below : Int
  above : Int
deriving DecidableEq, Repr

/-- Trigger::new:
`below = level.saturating_sub_unsigned(hysteresis).max(-127)`,
`above = level.saturating_add_unsigned(hysteresis).min(126)`. -/
def Trigger.new (level : Int) (hysteresis : Nat) : Trigger :=
  { state := State.Fresh
    level := level
    below := max (i8SaturatingSubUnsigned level hysteresis) (-127)
    above := min (i8SaturatingAddUnsigned level hysteresis) 126 }

/-! ## Trigger scanning (src/trigger.rs) -/

/-- enum EdgeFilter from src/trigger.rs. -/
inductive EdgeFilter where
  | Rising
  | Falling
  | Both
deriving DecidableEq, Repr

/-- enum Edge from src/trigger.rs. -/
inductive Edge where
  | Rising
  | Falling
deriving DecidableEq, Repr

/-- Index of the first sample of `group` satisfying `p`, or `group.length`
when none does: the value of `(mask.move_mask() as u16).trailing_zeros()` for
the 16-lane compare mask of one SIMD group (`trailing_zeros` of a zero 16-bit
mask is 16). -/
def maskFirst (p : Int → Bool) : List Int → Nat
  | [] => 0
  | x :: xs => if p x then 0 else maskFirst p xs + 1

/-- Iteration of scan_for over `g` complete 16-sample groups (the
`array_chunks::<16>` loop): on the first group whose compare mask is non-zero
stop with the slice advanced to the first matching sample; otherwise advance
past all `g` groups and report `false`. -/
def scanGroups (p : Int → Bool) : Nat → List Int → Bool × List Int
  | 0, samples => (false, samples)
  | g + 1, samples =>
    if maskFirst p (samples.take 16) < 16 then
      (true, samples.drop (maskFirst p (samples.take 16)))
    else
      scanGroups p g (samples.drop 16)

/-- Local fn scan_for of scan_impl!: `array_chunks::<16>` yields exactly
`⌊samples.length / 16⌋` complete groups; up to 15 trailing samples are left
unprocessed. -/
def scan_for (p : Int → Bool) (samples : List Int) : Bool × List Int :=
  scanGroups p (samples.length / 16) samples

/-- Main `loop` of scan_impl!: scan for a crossing of the threshold selected
by the current state; on a crossing flip the state and report the edge when
the filter requests its direction, otherwise keep scanning.  The loop runs at
most two iterations (a crossing in the direction excluded by the filter can
happen at most once before either a reported crossing or exhaustion), so any
`fuel ≥ 2` is exact; `fuel = 0` is never reached from `scan_generic`. -/
def scanLoop : Nat → Trigger → EdgeFilter → List Int → Trigger × List Int × Option Edge
  | 0, t, _, samples => (t, samples, none)
  | fuel + 1, t, filter, samples =>
    match t.state with
    | State.Fresh => (t, samples, none)
    | State.Below =>
      if (scan_for (fun x => decide (t.above < x)) samples).1 then
        match filter with
        | EdgeFilter.Both =>
          ({ t with state := State.Above },
            (scan_for (fun x => decide (t.above < x)) samples).2, some Edge.Rising)
        | EdgeFilter.Rising =>
          ({ t with state := State.Above },
            (scan_for (fun x => decide (t.above < x)) samples).2, some Edge.Rising)
        | EdgeFilter.Falling =>
          scanLoop fuel { t with state := State.Above } filter
            (scan_for (fun x => decide (t.above < x)) samples).2
      else
        (t, (scan_for (fun x => decide (t.above < x)) samples).2, none)
    | State.Above =>
      if (scan_for (fun x => decide (x < t.below)) samples).1 then
        match filter with
        | EdgeFilter.Both =>
          ({ t with state := State.Below },
            (scan_for (fun x => decide (x < t.below)) samples).2, some Edge.Falling)
        | EdgeFilter.Falling =>
          ({ t with state := State.Below },
            (scan_for (fun x => decide (x < t.below)) samples).2, some Edge.Falling)
        | EdgeFilter.Rising =>
          scanLoop fuel { t with state := State.Below } filter
            (scan_for (fun x => decide (x < t.below)) samples).2
      else
        (t, (scan_for (fun x => decide (x < t.below)) samples).2, none)

/-- Trigger::scan_generic (scan_impl!): in state `Fresh` the first sample
only selects `Below` (`sample < level`) or `Above` and is consumed without
reporting an edge; then the threshold-scanning loop runs.  Returns the
updated trigger, the remaining samples (the advanced `&mut &[i8]`), and the
detected edge, if any.  The AVX/AVX2 variants share this exact semantics via
the scan_impl! macro. -/
def Trigger.scan_generic (t : Trigger) (samples : List Int) (filter : EdgeFilter) :
    Trigger × List Int × Option Edge :=
  match t.state with
  | State.Fresh =>
    match samples with
    | [] => (t, samples, none)
    | first :: next_samples =>
      scanLoop (next_samples.length + 2)
        { t with state := if first < t.level then State.Below else State.Above }
        filter next_samples
  | _ => scanLoop (samples.length + 2) t filter samples

/-- Trigger::find: like scan, but returns the amount of consumed samples. -/
def Trigger.find (t : Trigger) (samples : List Int) (filter : EdgeFilter) :
    Trigger × Nat × Option Edge :=
  let r := t.scan_generic samples filter
  (r.1, samples.length - r.2.1.length, r.2.2)

/-! ## Ring buffer (src/capture.rs) -/

/-- RingSlice from src/capture.rs: a region of `len` bytes mapped twice
back-to-back, so that the byte at virtual offset `j` (for `j < 2·len`)
aliases `data[j % len]`.  Only the backing bytes are modelled; the virtual
double mapping is expressed by the indexing functions below. -/
structure RingSlice where
  data : List Nat
deriving DecidableEq, Repr

/-- RingSlice::len. -/
def RingSlice.len (s : RingSlice) : Nat := s.data.length

/-- Index<RangeFrom<usize>> for RingSlice: `&self[start..]` returns the
`len`-byte slice beginning at virtual offset `start`, which reads through
the mirror mapping (`from_raw_parts(ptr + start, len)`). -/
def RingSlice.sliceFrom (s : RingSlice) (start : Nat) : List Nat :=
  (List.range s.len).map (fun j => s.data.getD ((start + j) % s.len) 0)

/-- Effect of writing the byte sequence `bs` into the double mapping at
virtual offsets `start, start+1, ...`: byte `j` of `bs` lands in backing
byte `(start + j) % len`.  This models a writer filling a prefix of the
`&mut [u8]` handed out by `&mut self.buffer[self.cursor.index..][..max_size]`
in RingBuffer::append. -/
def RingSlice.writeSeq (s : RingSlice) (start : Nat) (bs : List Nat) : RingSlice :=
  match bs with
  | [] => s
  | b :: rest => RingSlice.writeSeq ⟨s.data.set (start % s.data.length) b⟩ (start + 1) rest

/-- RingBuffer from src/capture.rs. -/
structure RingBuffer where
  buffer : RingSlice
  cursor : RingCursor
deriving DecidableEq, Repr

/-- RingBuffer::read: returns `count` bytes starting at `cursor` through the
double mapping (Rust reinterprets them as `&[i8]`; values are kept as raw
bytes here).  The `assert!(cursor.bound == self.buffer.len() && count <=
self.buffer.len())` and the `index.start < self.len` assertion of
`Index<RangeFrom>` are modelled as `none`. -/
def RingBuffer.read (b : RingBuffer) (cursor : RingCursor) (count : Nat) :
    Option (List Nat) :=
  if cursor.bound = b.buffer.len ∧ count ≤ b.buffer.len ∧ cursor.index < b.buffer.len then
    some ((b.buffer.sliceFrom cursor.index).take count)
  else
    none

/-- RingBuffer::append, specialised to a writer that fills the provided
mutable slice with the bytes `bs` and returns `Ok(bs.len())`: the bytes land
at `cursor.index, cursor.index+1, ...` modulo the buffer length and the
cursor advances by `bs.length`.  The `assert!(max_size <= self.buffer.len())`
and the indexing assertion are modelled as `none`. -/
def RingBuffer.append (b : RingBuffer) (max_size : Nat) (bs : List Nat) :
    Option RingBuffer :=
  if max_size ≤ b.buffer.len ∧ bs.length ≤ max_size ∧ b.cursor.index < b.buffer.len then
    some { buffer := b.buffer.writeSeq b.cursor.index bs
           cursor := b.cursor.add bs.length }
  else
    none

/-! ## Digipot offset magnitude (src/params.rs) -/

/-- struct OffsetMagnitude: wiper code of the MCP4432T-503E digipot. -/
structure OffsetMagnitude where
  code : Nat
deriving DecidableEq, Repr

/-- const HALF_LSB in OffsetMagnitude::from_ohms: `(50000 / 128) / 2`
in integer arithmetic. -/
def HALF_LSB : Nat := (50000 / 128) / 2

/-- OffsetMagnitude::from_ohms.  The Rust function asserts
`ohms >= 75 && ohms <= 50000 + 75`; the panic is modelled as `none`. -/
def OffsetMagnitude.from_ohms (ohms : Nat) : Option OffsetMagnitude :=
  if 75 ≤ ohms ∧ ohms ≤ 50000 + 75 then
    some ⟨(ohms - 75 + HALF_LSB) * 128 / 50000⟩
  else
    none

/-- OffsetMagnitude::ohms: `code * 50000 / 128 + 75` in integer arithmetic. -/
def OffsetMagnitude.ohms (m : OffsetMagnitude) : Nat :=
  m.code * 50000 / 128 + 75

/-! ## Streamer (src/device.rs, impl Read for Streamer) -/

/-- const PAGE_BITS: the data mover reports progress in 4 KiB pages. -/
def PAGE_BITS : Nat := 12

/-- const MEMORY_SIZE: `1 << 16 << PAGE_BITS` = 256 MiB of device-side
circular memory. -/
def MEMORY_SIZE : Nat := (1 <<< 16) <<< PAGE_BITS

/-- Status register (regs/axi.rs): `pages` is the true total of 4 KiB pages
the data mover has written (the register exposes only its low 16 bits), plus
the two fatal error flags. -/
structure Status where
  pages : Nat
  fifoOverflow : Bool
  datamoverError : Bool
deriving DecidableEq, Repr

/-- Status::pages_moved: bits 0–15 of the status register. -/
def Status.pages_moved (st : Status) : Nat := st.pages % 65536

/-- Contents of the device-side circular memory after the device has written
the first `H` bytes of the stream `S`: address `a` holds the most recently
written byte with stream index `≡ a (mod MEMORY_SIZE)`; addresses never
written read as 0. -/
def devMem (S : Nat → Int) (H : Nat) (a : Nat) : Int :=
  if a < H then S (a + MEMORY_SIZE * ((H - 1 - a) / MEMORY_SIZE)) else 0

/-- The `(prev_cursor, length)` computation of Streamer::read:
`next_cursor < prev_cursor` means the head wrapped, so read up to the end of
the device memory; otherwise read up to the head. -/
def streamLength (st : Status) (prev b : Nat) : Nat :=
  if st.pages_moved <<< PAGE_BITS < prev then
    min b (MEMORY_SIZE - prev)
  else
    min b (st.pages_moved <<< PAGE_BITS - prev)

/-- The `while buffer.len() > 0` loop of `impl Read for Streamer`: each
iteration re-reads the Status register (held fixed at `st` during the call),
treats FifoOverflow/DatamoverError as fatal (a panic, modelled `none`),
latches the head on the first ever iteration, and otherwise issues one
`read_dma` of `length` bytes recorded in the `dmas` accumulator.  A call with
buffer size `b` runs at most `b + 2` iterations (each dma consumes ≥ 1 byte
of buffer; the latch and the final zero-length iteration add two), so the
fuel never runs out when entered through `Streamer.read`. -/
def readLoop (S : Nat → Int) (st : Status) :
    Nat → Option Nat → Nat → List Int → List (Nat × Nat) →
    Option (List Int × List (Nat × Nat) × Option Nat)
  | 0, cursor, _, acc, dmas => some (acc, dmas, cursor)
  | fuel + 1, cursor, b, acc, dmas =>
    if b = 0 then
      some (acc, dmas, cursor)
    else if st.fifoOverflow || st.datamoverError then
      none
    else
      match cursor with
      | none =>
        readLoop S st fuel (some (st.pages_moved <<< PAGE_BITS)) b acc dmas
      | some prev =>
        if 0 < streamLength st prev b then
          readLoop S st fuel
            (some ((prev + streamLength st prev b) % MEMORY_SIZE))
            (b - streamLength st prev b)
            (acc ++ (List.range (streamLength st prev b)).map
              (fun j => devMem S (4096 * st.pages) (prev + j)))
            (dmas ++ [(prev, streamLength st prev b)])
        else
          some (acc, dmas, cursor)

/-- Streamer::read for one call: buffer of `b` bytes, returning the bytes
delivered, the `read_dma` calls issued as `(address, length)` pairs, and the
updated cursor. -/
def Streamer.read (S : Nat → Int) (st : Status) (cursor : Option Nat) (b : Nat) :
    Option (List Int × List (Nat × Nat) × Option Nat) :=
  readLoop S st (b + 2) cursor b [] []

/-- A sequence of Streamer::read calls: each entry gives the device's true
page total at the moment of the call and the caller's buffer size.  Error
flags are clear (the FPGA functioning correctly). -/
def Streamer.runCalls (S : Nat → Int) :
    List (Nat × Nat) → Option Nat → Option (List Int × Option Nat)
  | [], cursor => some ([], cursor)
  | (P, b) :: rest, cursor =>
    match Streamer.read S ⟨P, false, false⟩ cursor b with
    | none => none
    | some (out, _, c2) =>
      match Streamer.runCalls S rest c2 with
      | none => none
      | some (outs, cF) => some (out ++ outs, cF)

/-- Bytes delivered by one call: the reader at stream position `n` with a
`b`-byte buffer and device head `4096·P` advances by `min b (4096·P − n)`. -/
def stepN (P b n : Nat) : Nat := n + min b (4096 * P - n)

/-- The claim's proviso, per call: the reader position never exceeds the head
and never lags by a full 256 MiB or more. -/
def lagOK : List (Nat × Nat) → Nat → Prop
  | [], _ => True
  | (P, b) :: rest, n =>
    n ≤ 4096 * P ∧ 4096 * P < n + MEMORY_SIZE ∧ lagOK rest (stepN P b n)

/-- Final reader position after a sequence of calls. -/
def finalN : List (Nat × Nat) → Nat → Nat
  | [], n => n
  | (P, b) :: rest, n => finalN rest (stepN P b n)

/-- The read_dma calls one Streamer::read performs to deliver `w` bytes from
ring address `prev`: one dma, or two when the range wraps at the 256 MiB
boundary. -/
def dmaSplit (prev w : Nat) : List (Nat × Nat) :=
  if w = 0 then []
  else if prev + w ≤ MEMORY_SIZE then [(prev, w)]
  else [(prev, MEMORY_SIZE - prev), (0, w - (MEMORY_SIZE - prev))]

/-! ## Device register-write model (device.rs, regs/axi.rs) -/

/-- One observable action of `Device` (device.rs): one `write_fifo` call
(the byte-by-byte FIFO register writes, the transmit-length write and the
ISR polling are collapsed into the packet transmitted), one write of the AXI
Control register, or one sleep (in microseconds). -/
inductive Event where
  | fifo (data : List Nat)
  | ctrl (value : Nat)
  | sleep (usec : Nat)

/-- Control register bits, from regs/axi.rs. -/
def Control.DatamoverHaltN : Nat := 1 <<< 0

/-- Control::FpgaAcqResetN (regs/axi.rs). -/
def Control.FpgaAcqResetN : Nat := 1 <<< 1

/-- Control::ChannelMux0 (regs/axi.rs). -/
def Control.ChannelMux0 : Nat := 1 <<< 4

/-- Control::ChannelMux1 (regs/axi.rs). -/
def Control.ChannelMux1 : Nat := 1 <<< 5

/-- Control::Ch1Termination..Ch4Termination (regs/axi.rs, bits 12..15)
selected by Control::ch_termination(index). -/
def Control.ch_termination (index : Nat) : Nat := 1 <<< (12 + index)

/-- Control::Ch1Attenuator..Ch4Attenuator (regs/axi.rs, bits 16..19)
selected by Control::ch_attenuator(index). -/
def Control.ch_attenuator (index : Nat) : Nat := 1 <<< (16 + index)

/-- Control::Ch1Coupling..Ch4Coupling (regs/axi.rs, bits 20..23)
selected by Control::ch_coupling(index). -/
def Control.ch_coupling (index : Nat) : Nat := 1 <<< (20 + index)

/-- Control::Rail3V3Enabled (regs/axi.rs). -/
def Control.Rail3V3Enabled : Nat := 1 <<< 24

/-- Control::ClockGenResetN (regs/axi.rs). -/
def Control.ClockGenResetN : Nat := 1 <<< 25

/-- Control::Rail5VEnabled (regs/axi.rs). -/
def Control.Rail5VEnabled : Nat := 1 <<< 26

/-- bitflags `insert`: set the bits of `x` in the u32 value `v`. -/
def Control.insert (v x : Nat) : Nat := v ||| x

/-- bitflags `remove`: clear the bits of `x` in the u32 value `v`
(`v & !x` on u32). -/
def Control.remove (v x : Nat) : Nat := v &&& (0xffffffff ^^^ x)

/-- The embedded Device: the current value of the AXI Control register and
the trace of actions performed so far. -/
structure Dev where
  control : Nat
  trace : List Event

/-- Device::write_fifo: transmit one packet. -/
def Dev.write_fifo (d : Dev) (data : List Nat) : Dev :=
  { d with trace := d.trace ++ [Event.fifo data] }

/-- thread::sleep, recorded in microseconds. -/
def Dev.sleepFor (d : Dev) (usec : Nat) : Dev :=
  { d with trace := d.trace ++ [Event.sleep usec] }

/-- Device::write_i2c: `0xff` selects I2C, then the 7-bit address, then the
payload, followed by the 50 µs-per-byte settle sleep. -/
def Dev.write_i2c (d : Dev) (i2c_addr : Nat) (data : List Nat) : Dev :=
  (d.write_fifo (0xff :: i2c_addr :: data)).sleepFor (50 * data.length)

/-- Device::write_spi: `0xfd - spi_bus` selects the SPI bus (bus 0 = ADC,
buses 2..5 = PGA1..PGA4), then the payload, then a 10 µs sleep. -/
def Dev.write_spi (d : Dev) (spi_bus : Nat) (data : List Nat) : Dev :=
  (d.write_fifo ((0xfd - spi_bus) :: data)).sleepFor 10

/-- Device::write_pll_register: register write command `0x02`, big-endian
16-bit register address, 8-bit value, at I2C address `0b11101000`. -/
def Dev.write_pll_register (d : Dev) (reg_addr value : Nat) : Dev :=
  d.write_i2c 0xe8 [0x02, (reg_addr >>> 8) % 256, reg_addr % 256, value]

/-- Device::init_pll_registers: each init word packs the register address in
bits 8.. and the value in bits 0..8 (`(init_word >> 8) as u16`,
`init_word as u8`). -/
def Dev.init_pll_registers (d : Dev) (init_words : List Nat) : Dev :=
  init_words.foldl
    (fun d w => d.write_pll_register ((w >>> 8) % 65536) (w % 256)) d

/-- const SPI_BUS_ADC in device.rs. -/
def SPI_BUS_ADC : Nat := 0

/-- const SPI_BUS_PGA in device.rs. -/
def SPI_BUS_PGA : List Nat := [2, 3, 4, 5]

/-- Modelled from the spec: the HMCAD1520 register addresses of
`regs/adc.rs` (the module is not part of the source tree given to us), kept
as opaque pairwise-distinct placeholder values; every statement below uses
them only symbolically. ADDR_HMCAD1520_RESET. -/
def ADDR_HMCAD1520_RESET : Nat := 0

/-- Modelled from the spec: ADDR_HMCAD1520_POWER (see ADDR_HMCAD1520_RESET). -/
def ADDR_HMCAD1520_POWER : Nat := 1

/-- Modelled from the spec: ADDR_HMCAD1520_INVERT (see ADDR_HMCAD1520_RESET). -/
def ADDR_HMCAD1520_INVERT : Nat := 2

/-- Modelled from the spec: ADDR_HMCAD1520_FS_CNTRL (see ADDR_HMCAD1520_RESET). -/
def ADDR_HMCAD1520_FS_CNTRL : Nat := 3

/-- Modelled from the spec: ADDR_HMCAD1520_GAIN_CFG (see ADDR_HMCAD1520_RESET). -/
def ADDR_HMCAD1520_GAIN_CFG : Nat := 4

/-- Modelled from the spec: ADDR_HMCAD1520_QUAD_GAIN (see ADDR_HMCAD1520_RESET). -/
def ADDR_HMCAD1520_QUAD_GAIN : Nat := 5

/-- Modelled from the spec: ADDR_HMCAD1520_DUAL_GAIN (see ADDR_HMCAD1520_RESET). -/
def ADDR_HMCAD1520_DUAL_GAIN : Nat := 6

/-- Modelled from the spec: ADDR_HMCAD1520_RES_SEL (see ADDR_HMCAD1520_RESET). -/
def ADDR_HMCAD1520_RES_SEL : Nat := 7

/-- Modelled from the spec: ADDR_HMCAD1520_LVDS_PHASE (see ADDR_HMCAD1520_RESET). -/
def ADDR_HMCAD1520_LVDS_PHASE : Nat := 8

/-- Modelled from the spec: ADDR_HMCAD1520_LVDS_DRIVE (see ADDR_HMCAD1520_RESET). -/
def ADDR_HMCAD1520_LVDS_DRIVE : Nat := 9

/-- Modelled from the spec: ADDR_HMCAD1520_CHNUM_CLKDIV (see ADDR_HMCAD1520_RESET). -/
def ADDR_HMCAD1520_CHNUM_CLKDIV : Nat := 10

/-- Modelled from the spec: ADDR_HMCAD1520_INSEL12 (see ADDR_HMCAD1520_RESET). -/
def ADDR_HMCAD1520_INSEL12 : Nat := 11

/-- Modelled from the spec: ADDR_HMCAD1520_INSEL34 (see ADDR_HMCAD1520_RESET). -/
def ADDR_HMCAD1520_INSEL34 : Nat := 12

/-- Device::write_adc_register: SPI bus 0, 8-bit register address followed by
the big-endian 16-bit value. -/
def Dev.write_adc_register (d : Dev) (reg_addr value : Nat) : Dev :=
  d.write_spi SPI_BUS_ADC [reg_addr, (value >>> 8) % 256, value % 256]

/-- Device::init_adc_registers: write each `(reg_addr, value)` pair in
order. -/
def Dev.init_adc_registers (d : Dev) (init_pairs : List (Nat × Nat)) : Dev :=
  init_pairs.foldl (fun d pr => d.write_adc_register pr.1 pr.2) d

/-- Device::write_control: set the Control register (read back by the next
read_control). -/
def Dev.write_control (d : Dev) (value : Nat) : Dev :=
  { control := value, trace := d.trace ++ [Event.ctrl value] }

/-- Device::modify_control: read_control, apply `f`, write_control. -/
def Dev.modify_control (d : Dev) (f : Nat → Nat) : Dev :=
  d.write_control (f d.control)

/-- enum Termination (config.rs). -/
inductive Termination where
  | Ohm1M
  | Ohm50

/-- enum Coupling (config.rs). -/
inductive Coupling where
  | DC
  | AC

/-- enum CoarseAttenuation (params.rs). -/
inductive CoarseAttenuation where
  | X1
  | X50

/-- enum Amplification (params.rs). -/
inductive Amplification where
  | dB10
  | dB30

/-- Amplification::lmh6518_code. -/
def Amplification.lmh6518_code : Amplification → Nat
  | Amplification.dB10 => 0b0 <<< 4
  | Amplification.dB30 => 0b1 <<< 4

/-- enum FineAttenuation (params.rs). -/
inductive FineAttenuation where
  | dB0
  | dB2
  | dB4
  | dB6
  | dB8
  | dB10
  | dB12
  | dB14
  | dB16
  | dB18
  | dB20

/-- FineAttenuation::lmh6518_code. -/
def FineAttenuation.lmh6518_code : FineAttenuation → Nat
  | FineAttenuation.dB0 => 0b0000
  | FineAttenuation.dB2 => 0b0001
  | FineAttenuation.dB4 => 0b0010
  | FineAttenuation.dB6 => 0b0011
  | FineAttenuation.dB8 => 0b0100
  | FineAttenuation.dB10 => 0b0101
  | FineAttenuation.dB12 => 0b0110
  | FineAttenuation.dB14 => 0b0111
  | FineAttenuation.dB16 => 0b1000
  | FineAttenuation.dB18 => 0b1001
  | FineAttenuation.dB20 => 0b1010

/-- enum Filtering (params.rs). -/
inductive Filtering where
  | MHz20
  | MHz100
  | MHz200
  | MHz350
  | Off

/-- Filtering::lmh6518_code. -/
def Filtering.lmh6518_code : Filtering → Nat
  | Filtering.MHz20 => 0b001 <<< 6
  | Filtering.MHz100 => 0b010 <<< 6
  | Filtering.MHz200 => 0b011 <<< 6
  | Filtering.MHz350 => 0b100 <<< 6
  | Filtering.Off => 0b000 <<< 6

/-- struct OffsetValue (params.rs): 12-bit DAC code. -/
structure OffsetValue where
  code : Nat

/-- struct ChannelParameters (params.rs).  The `probe_attenuation: f32`
field is omitted: it only affects the floating-point gain computations, not
any register write. -/
structure ChannelParameters where
  termination : Termination
  coupling : Coupling
  coarse_attenuation : CoarseAttenuation
  amplification : Amplification
  fine_attenuation : FineAttenuation
  filtering : Filtering
  offset_magnitude : OffsetMagnitude
  offset_value : OffsetValue

/-- ChannelParameters::default(): every field's `#[default]` variant
(Termination::Ohm1M, Coupling::DC, CoarseAttenuation::X50,
Amplification::dB30, FineAttenuation::dB0, Filtering::MHz100) and the
mid-scale offset codes 0x40 and 0x3fff. -/
def ChannelParameters.default : ChannelParameters :=
  { termination := Termination.Ohm1M,
    coupling := Coupling.DC,
    coarse_attenuation := CoarseAttenuation.X50,
    amplification := Amplification.dB30,
    fine_attenuation := FineAttenuation.dB0,
    filtering := Filtering.MHz100,
    offset_magnitude := ⟨0x40⟩,
    offset_value := ⟨0x3fff⟩ }

/-- struct DeviceParameters (params.rs): the four per-channel parameter
slots (the `[Option<ChannelParameters>; 4]` array as a list). -/
structure DeviceParameters where
  channels : List (Option ChannelParameters)

/-- DeviceParameters::default(): all four channels enabled with default
parameters. -/
def DeviceParameters.default : DeviceParameters :=
  ⟨[some ChannelParameters.default, some ChannelParameters.default,
    some ChannelParameters.default, some ChannelParameters.default]⟩

/-- Device::write_pga_command: `0x00` (write command word) then the
big-endian 16-bit command. -/
def Dev.write_pga_command (d : Dev) (pga_bus command : Nat) : Dev :=
  d.write_spi pga_bus [0x00, (command >>> 8) % 256, command % 256]

/-- Device::configure_pga: aux output off (bit 10) or-ed with the filtering,
amplification and fine-attenuation LMH6518 codes, on the channel's PGA
bus. -/
def Dev.configure_pga (d : Dev) (index : Nat) (params : ChannelParameters) : Dev :=
  d.write_pga_command (SPI_BUS_PGA.getD index 0)
    ((1 <<< 10) ||| params.filtering.lmh6518_code |||
      params.amplification.lmh6518_code ||| params.fine_attenuation.lmh6518_code)

/-- Device::write_digipot_input: wiper address in bits 12.., write command
`0b00` in bits 10..12, 10-bit input, sent big-endian to I2C address
`0b0101100`. -/
def Dev.write_digipot_input (d : Dev) (addr input : Nat) : Dev :=
  d.write_i2c 0x2c
    [(((addr <<< 12) ||| (input &&& 0x3ff)) >>> 8) % 256,
     ((addr <<< 12) ||| (input &&& 0x3ff)) % 256]

/-- Device::write_trimdac_input: multi-write command `0b01011`, channel in
bits 1..3, then the big-endian 16-bit input, at I2C address `0b1100000`. -/
def Dev.write_trimdac_input (d : Dev) (channel input : Nat) : Dev :=
  d.write_i2c 0x60
    [0b01011000 ||| ((channel &&& 0b11) <<< 1),
     (input >>> 8) % 256, input % 256]

/-- const WIPER_ADDRESS in Device::configure_digipot_trimdac. -/
def WIPER_ADDRESS : List Nat := [0x6, 0x0, 0x1, 0x7]

/-- Device::configure_digipot_trimdac: digipot wiper code, then the trimdac
code with the Vref bit (1 << 15) always set. -/
def Dev.configure_digipot_trimdac (d : Dev) (index : Nat)
    (params : ChannelParameters) : Dev :=
  ((d.write_digipot_input (WIPER_ADDRESS.getD index 0)
      params.offset_magnitude.code).write_trimdac_input
    index ((1 <<< 15) ||| params.offset_value.code))

/-- Device::enable_datamover. -/
def Dev.enable_datamover (d : Dev) : Dev :=
  d.modify_control (fun v =>
    Control.insert v (Control.DatamoverHaltN ||| Control.FpgaAcqResetN))

/-- Device::disable_datamover: halt the data mover, wait 5 ms, reset the
acquisition subsystem. -/
def Dev.disable_datamover (d : Dev) : Dev :=
  (((d.modify_control (fun v => Control.remove v Control.DatamoverHaltN)).sleepFor
      5000).modify_control
    (fun v => Control.remove v Control.FpgaAcqResetN))

/-- The `insel` permutation of Device::enable_adc_channels: faceplate
channels CH1..CH4 map to ADC inputs IN4..IN1 (`position` on the reversed
`enabled` array). -/
def adcInsel (enabled : List Bool) (chnum : Nat) : List Nat :=
  if chnum = 1 then
    [enabled.reverse.findIdx (fun en => en),
     enabled.reverse.findIdx (fun en => en),
     enabled.reverse.findIdx (fun en => en),
     enabled.reverse.findIdx (fun en => en)]
  else if chnum = 2 then
    [enabled.reverse.findIdx (fun en => en) + 1 +
       (enabled.reverse.drop (enabled.reverse.findIdx (fun en => en) + 1)).findIdx
         (fun en => en),
     enabled.reverse.findIdx (fun en => en) + 1 +
       (enabled.reverse.drop (enabled.reverse.findIdx (fun en => en) + 1)).findIdx
         (fun en => en),
     enabled.reverse.findIdx (fun en => en),
     enabled.reverse.findIdx (fun en => en)]
  else if chnum = 4 then [3, 2, 1, 0]
  else []

/-- The register/mux writes of Device::enable_adc_channels once `clkdiv`,
`chnum` and the FPGA `chmux` bits have been selected: power down, clock
divisor and channel count, power up, the two input-select registers, then
the FPGA channel mux update. -/
def Dev.applyAdcConfig (d : Dev) (enabled : List Bool)
    (clkdiv chnum chmux : Nat) : Dev :=
  ((d.init_adc_registers
      [(ADDR_HMCAD1520_POWER, 0x0200),
       (ADDR_HMCAD1520_CHNUM_CLKDIV, (clkdiv <<< 8) ||| chnum),
       (ADDR_HMCAD1520_POWER, 0x0000),
       (ADDR_HMCAD1520_INSEL12,
         (0x0200 <<< (adcInsel enabled chnum).getD 1 0) |||
           (0x0002 <<< (adcInsel enabled chnum).getD 0 0)),
       (ADDR_HMCAD1520_INSEL34,
         (0x0200 <<< (adcInsel enabled chnum).getD 3 0) |||
           (0x0002 <<< (adcInsel enabled chnum).getD 2 0))]).modify_control
    (fun v =>
      Control.insert
        (Control.remove v (Control.ChannelMux0 ||| Control.ChannelMux1)) chmux))

/-- Device::enable_adc_channels: the `panic!("unsupported channel
configuration")` on zero enabled channels is modelled as `none`. -/
def Dev.enable_adc_channels (d : Dev) (enabled : List Bool) : Option Dev :=
  if (enabled.map (fun en => if en then (1 : Nat) else 0)).sum = 1 then
    some (d.applyAdcConfig enabled 0 1 0)
  else if (enabled.map (fun en => if en then (1 : Nat) else 0)).sum = 2 then
    some (d.applyAdcConfig enabled 1 2 Control.ChannelMux0)
  else if (enabled.map (fun en => if en then (1 : Nat) else 0)).sum = 3 then
    some (d.applyAdcConfig enabled 2 4 Control.ChannelMux1)
  else if (enabled.map (fun en => if en then (1 : Nat) else 0)).sum = 4 then
    some (d.applyAdcConfig enabled 2 4 Control.ChannelMux1)
  else none

/-- The second loop of Device::configure: per channel, set or clear the
termination, coupling and coarse-attenuation Control bits. -/
def Dev.foldConfigCtl (d : Dev) (params : DeviceParameters) : Dev :=
  params.channels.enum.foldl
    (fun d ic =>
      let ch := ic.2.getD ChannelParameters.default
      d.modify_control (fun v =>
        let v1 := match ch.termination with
          | Termination.Ohm1M => Control.remove v (Control.ch_termination ic.1)
          | Termination.Ohm50 => Control.insert v (Control.ch_termination ic.1)
        let v2 := match ch.coupling with
          | Coupling.AC => Control.remove v1 (Control.ch_coupling ic.1)
          | Coupling.DC => Control.insert v1 (Control.ch_coupling ic.1)
        match ch.coarse_attenuation with
        | CoarseAttenuation.X50 => Control.remove v2 (Control.ch_attenuator ic.1)
        | CoarseAttenuation.X1 => Control.insert v2 (Control.ch_attenuator ic.1))) d

/-- The third loop of Device::configure: per channel, write the offset
digipot and trimdac. -/
def Dev.foldDigipots (d : Dev) (params : DeviceParameters) : Dev :=
  params.channels.enum.foldl
    (fun d ic =>
      d.configure_digipot_trimdac ic.1 (ic.2.getD ChannelParameters.default)) d

/-- Device::configure: PGAs first, then termination/coupling/attenuator
control bits, then the offset digipots and trimdacs, then disable the data
mover, reconfigure the ADC channels, and re-enable the data mover.
Disabled channels use default parameters (`unwrap_or_default`). -/
def Dev.configure (d : Dev) (params : DeviceParameters) : Option Dev :=
  match
    (((params.channels.enum.foldl
          (fun d ic => d.configure_pga ic.1 (ic.2.getD ChannelParameters.default))
          d).foldConfigCtl params).foldDigipots params).disable_datamover.enable_adc_channels
      (params.channels.map (fun c => c.isSome))
  with
  | none => none
  | some d => some d.enable_datamover

/-- The Rev4 PLL configuration blob written by Device::startup (31 init
words). -/
def pllRev4Blob : List Nat :=
  [0x042308, 0x000301, 0x000402, 0x000521,
   0x000701, 0x010042, 0x010100, 0x010201,
   0x010600, 0x010700, 0x010800, 0x010900,
   0x010A20, 0x010B03, 0x012160, 0x012790,
   0x014100, 0x014200, 0x014300, 0x014400,
   0x0145A0, 0x015300, 0x015450, 0x0155CE,
   0x018000, 0x020080, 0x020105, 0x025080,
   0x025102, 0x04300C, 0x043000]

/-- The PLL output phase alignment words written by Device::startup. -/
def pllPhaseAlign : List Nat := [0x010002, 0x010042]

/-- The ADC init table written by Device::startup (the 11th pair, the ramp
test mode, is commented out in the source). -/
def adcStartupTable : List (Nat × Nat) :=
  [(ADDR_HMCAD1520_RESET, 0x0001),
   (ADDR_HMCAD1520_POWER, 0x0200),
   (ADDR_HMCAD1520_INVERT, 0x007F),
   (ADDR_HMCAD1520_FS_CNTRL, 0x0020),
   (ADDR_HMCAD1520_GAIN_CFG, 0x0000),
   (ADDR_HMCAD1520_QUAD_GAIN, 0x9999),
   (ADDR_HMCAD1520_DUAL_GAIN, 0x0A99),
   (ADDR_HMCAD1520_RES_SEL, 0x0000),
   (ADDR_HMCAD1520_LVDS_PHASE, 0x0060),
   (ADDR_HMCAD1520_LVDS_DRIVE, 0x0222)]

/-- The tail of Device::startup after the Rev4 PLL blob: phase-align the PLL
outputs, write the ADC init table (leaving the ADC powered down), enable
the 5V rail, and configure to the default state. -/
def Dev.pllAlignAndAdc (d : Dev) : Option Dev :=
  (((((d.init_pll_registers pllPhaseAlign).sleepFor 10000).init_adc_registers
        adcStartupTable).modify_control (fun v =>
        Control.insert v Control.Rail5VEnabled)).sleepFor 5000).configure
    DeviceParameters.default

/-- Device::startup: stop the data mover, power sequence the 3V3 rail and
clock generator, program the PLL (Rev4 blob, then phase alignment), write
the ADC init table leaving the ADC powered down, enable the 5V rail, and
configure to the default state. -/
def Dev.startup (d : Dev) : Option Dev :=
  ((((((((d.disable_datamover.modify_control (fun v =>
              Control.insert v
                (Control.ClockGenResetN ||| Control.Rail3V3Enabled))).sleepFor
            10000).modify_control (fun v =>
              Control.remove v Control.ClockGenResetN)).sleepFor
          100).modify_control (fun v =>
            Control.insert v Control.ClockGenResetN)).sleepFor
        1000).init_pll_registers pllRev4Blob).sleepFor 10000).pllAlignAndAdc

/-- Tag the FIFO packets that address the PLL (I2C address `0b11101000`,
tag 0) or the ADC (SPI bus 0, packet head `0xfd`, tag 1); every other
action — control register writes, sleeps, PGA/digipot/trimdac packets — is
dropped. -/
def Event.busTag : Event → Option (Nat × List Nat)
  | Event.fifo (b :: rest) =>
    if b = 0xff then
      match rest with
      | a :: rest2 => if a = 0xe8 then some (0, rest2) else none
      | [] => none
    else if b = 0xfd then some (1, rest)
    else none
  | _ => none

/-- The subsequence of PLL and ADC register writes in a device trace, in
order, with their payloads. -/
def busWrites (tr : List Event) : List (Nat × List Nat) :=
  tr.filterMap Event.busTag

/-- The payload write_pll_register sends for the init word `w`. -/
def pllRegPacket (w : Nat) : List Nat :=
  [0x02, (((w >>> 8) % 65536) >>> 8) % 256, ((w >>> 8) % 65536) % 256, w % 256]

/-- The payload write_adc_register sends for the pair `(reg_addr, value)`. -/
def adcPacket (pr : Nat × Nat) : List Nat :=
  [pr.1, (pr.2 >>> 8) % 256, pr.2 % 256]

end Thunderscope

namespace Thunderscope

/-! ## Theorems: ring cursor arithmetic (C6) -/

/-- C6 counterexample: for `bound = 3` (which does not divide `2^64`) the
implementation's wrap-then-reduce subtraction disagrees with the claimed
formula `(index + L·⌈k/L⌉ − k) mod L` already at `index = 0`, `k = 1`:
the code yields `(2^64 − 1) mod 3 = 0` while the formula yields `2`. -/
theorem ringCursor_sub_claim_cex :
    (RingCursor.sub ⟨0, 3⟩ 1).index = 0 ∧
    (0 + 3 * ((1 + 3 - 1) / 3) - 1) % 3 = 2 ∧ (0 : Nat) ≠ 2 := by
  refine ⟨?_, by decide, by decide⟩
  show ((0 + USIZE - 1 % USIZE) % USIZE) % 3 = 0
  decide

/-- C6 amended: when the bound `L` divides `2^64` (in particular for every
power-of-two bound), wrapping on the machine integer first and reducing
modulo `L` afterwards gives `(c + k).index = (c.index + k) mod L` and
`(c − k).index = (c.index + L·⌈k/L⌉ − k) mod L` for every `usize` offset
`k < 2^64`, including offsets larger than `L`. -/
theorem ringCursor_add_sub_index (c : RingCursor) (k : Nat)
    (hdvd : c.bound ∣ USIZE) (hi : c.index < c.bound) (hk : k < USIZE) :
    (c.add k).index = (c.index + k) % c.bound ∧
    (c.sub k).index = (c.index + c.bound * ((k + c.bound - 1) / c.bound) - k) % c.bound := by
  obtain ⟨m, hm⟩ := hdvd
  have hLpos : 0 < c.bound := by
    rcases Nat.eq_zero_or_pos c.bound with h0 | h
    · exfalso; rw [h0] at hi; omega
    · exact h
  constructor
  · show ((c.index + k) % USIZE) % c.bound = (c.index + k) % c.bound
    exact Nat.mod_mod_of_dvd _ ⟨m, hm⟩
  · show ((c.index + USIZE - k % USIZE) % USIZE) % c.bound = _
    rw [Nat.mod_eq_of_lt hk]
    rw [Nat.mod_mod_of_dvd _ ⟨m, hm⟩]
    -- let `q = ⌈k/L⌉`; then `L*q` is the least multiple of `L` that is `≥ k`
    have h1 := Nat.div_add_mod (k + c.bound - 1) c.bound
    have h2 := Nat.mod_lt (k + c.bound - 1) hLpos
    generalize hq : (k + c.bound - 1) / c.bound = q at h1 ⊢
    have hqk : k ≤ c.bound * q := by omega
    have hkUS : k < c.bound * m := by rw [← hm]; exact hk
    have hqm : q ≤ m := by
      have h4 : c.bound * q < c.bound * (m + 1) := by
        rw [Nat.mul_add, Nat.mul_one]; omega
      exact Nat.lt_succ_iff.mp (Nat.lt_of_mul_lt_mul_left h4)
    have h5 : c.bound * m = c.bound * q + c.bound * (m - q) := by
      rw [← Nat.mul_add]; congr 1; omega
    have hsplit : c.index + USIZE - k = (c.index + c.bound * q - k) + c.bound * (m - q) := by
      rw [hm]; omega
    rw [hsplit, Nat.add_mul_mod_self_left]

/-- Concrete instance of `ringCursor_add_sub_index` at `c = ⟨5, 8⟩`, `k = 10`. -/
theorem ringCursor_add_sub_index_witness :
    (RingCursor.add ⟨5, 8⟩ 10).index = (5 + 10) % 8 ∧
    (RingCursor.sub ⟨5, 8⟩ 10).index = (5 + 8 * ((10 + 8 - 1) / 8) - 10) % 8 :=
  ringCursor_add_sub_index ⟨5, 8⟩ 10 (by decide) (by decide) (by decide)

/-! ## Theorems: trigger thresholds (C3) -/

/-- C3 counterexample: at `level = 127`, `hysteresis = 0` the code computes
`below = 127` and `above = 126`, so neither `below = clamp(level − h, −127, 126)`
nor `below ≤ level ≤ above` holds. -/
theorem trigger_new_thresholds_cex :
    (Trigger.new 127 0).below = 127 ∧
    (Trigger.new 127 0).above = 126 ∧
    clampInt (127 - 0) (-127) 126 = 126 ∧
    ¬ ((Trigger.new 127 0).below = clampInt (127 - 0) (-127) 126 ∧
       (127 : Int) ≤ (Trigger.new 127 0).above) := by
  refine ⟨by decide, by decide, by decide, ?_⟩
  intro h
  exact absurd h.1 (by decide)

/-- C3 amended: for every `level ∈ [−128, 127]` and `hysteresis ∈ [0, 255]`,
`Trigger::new` computes `below = clamp(level − h, −127, 127)` (the upper bound
is `127`, not `126`) and `above = clamp(level + h, −128, 126)` (the lower bound
is `−128`, not `−127`); consequently `below ≥ −127`, `above ≤ 126`, and
`below ≤ level ≤ above` holds whenever `−127 ≤ level ≤ 126` (it fails at the
two extreme levels `−128` and `127`). -/
theorem trigger_new_thresholds (level : Int) (h : Nat)
    (hlevel : -128 ≤ level ∧ level ≤ 127) (hh : h ≤ 255) :
    (Trigger.new level h).below = clampInt (level - h) (-127) 127 ∧
    (Trigger.new level h).above = clampInt (level + h) (-128) 126 ∧
    -127 ≤ (Trigger.new level h).below ∧
    (Trigger.new level h).above ≤ 126 ∧
    (-127 ≤ level → (Trigger.new level h).below ≤ level) ∧
    (level ≤ 126 → level ≤ (Trigger.new level h).above) := by
  simp only [Trigger.new, i8SaturatingSubUnsigned, i8SaturatingAddUnsigned, clampInt]
  omega

/-- Concrete instance of `trigger_new_thresholds` at `level = 50`, `h = 1`. -/
theorem trigger_new_thresholds_witness :
    (Trigger.new 50 1).below = clampInt (50 - 1) (-127) 127 ∧
    (Trigger.new 50 1).above = clampInt (50 + 1) (-128) 126 ∧
    -127 ≤ (Trigger.new 50 1).below ∧
    (Trigger.new 50 1).above ≤ 126 ∧
    (-127 ≤ (50 : Int) → (Trigger.new 50 1).below ≤ 50) ∧
    ((50 : Int) ≤ 126 → (50 : Int) ≤ (Trigger.new 50 1).above) :=
  trigger_new_thresholds 50 1 (by decide) (by decide)

/-! ## Theorems: trigger scanning (C2, C7) -/

theorem maskFirst_le_length (p : Int → Bool) (l : List Int) : maskFirst p l ≤ l.length := by
  induction l with
  | nil => simp [maskFirst]
  | cons x xs ih =>
    simp only [maskFirst, List.length_cons]
    split
    · omega
    · omega

theorem maskFirst_eq_length (p : Int → Bool) (l : List Int)
    (h : ∀ i, i < l.length → p (l.getD i 0) = false) : maskFirst p l = l.length := by
  induction l with
  | nil => rfl
  | cons x xs ih =>
    have h0 : p x = false := by simpa using h 0 (by simp)
    simp only [maskFirst, h0, Bool.false_eq_true, if_false, List.length_cons]
    rw [ih]
    intro i hi
    simpa using h (i + 1) (by simp; omega)

theorem maskFirst_eq_first (p : Int → Bool) (l : List Int) (j : Nat)
    (hj : j < l.length) (hp : p (l.getD j 0) = true)
    (hfirst : ∀ i, i < j → p (l.getD i 0) = false) : maskFirst p l = j := by
  induction l generalizing j with
  | nil => simp at hj
  | cons x xs ih =>
    match j with
    | 0 =>
      have hx : p x = true := by simpa using hp
      simp [maskFirst, hx]
    | j2 + 1 =>
      have h0 : p x = false := by simpa using hfirst 0 (by omega)
      simp only [maskFirst, h0, Bool.false_eq_true, if_false]
      rw [ih j2 (by simpa using hj) (by simpa using hp)
        (fun i hi => by simpa using hfirst (i + 1) (by omega))]

theorem scanGroups_none (p : Int → Bool) (g : Nat) :
    ∀ (samples : List Int), 16 * g ≤ samples.length →
      (∀ j, j < 16 * g → p (samples.getD j 0) = false) →
      scanGroups p g samples = (false, samples.drop (16 * g)) := by
  induction g with
  | zero =>
    intro samples _ _
    simp [scanGroups]
  | succ g ih =>
    intro samples hg h
    rw [scanGroups]
    have htake : (samples.take 16).length = 16 := by
      simp only [List.length_take]
      omega
    have hmf : maskFirst p (samples.take 16) = 16 := by
      have hh := maskFirst_eq_length p (samples.take 16) ?_
      · rw [htake] at hh
        exact hh
      · intro i hi
        rw [htake] at hi
        rw [List.getD_eq_getElem?_getD, List.getElem?_take, if_pos hi,
          ← List.getD_eq_getElem?_getD]
        exact h i (by omega)
    rw [hmf, if_neg (by omega)]
    rw [ih (samples.drop 16) (by simp only [List.length_drop]; omega) ?_]
    · rw [List.drop_drop]
      congr 2
      omega
    · intro j hj
      rw [List.getD_eq_getElem?_getD, List.getElem?_drop, ← List.getD_eq_getElem?_getD]
      exact h (16 + j) (by omega)

theorem scanGroups_found (p : Int → Bool) (g : Nat) :
    ∀ (samples : List Int) (j : Nat), 16 * g ≤ samples.length →
      j < 16 * g → p (samples.getD j 0) = true →
      (∀ i, i < j → p (samples.getD i 0) = false) →
      scanGroups p g samples = (true, samples.drop j) := by
  induction g with
  | zero =>
    intro samples j _ hj _ _
    omega
  | succ g ih =>
    intro samples j hg hj hp hfirst
    rw [scanGroups]
    have htake : (samples.take 16).length = 16 := by
      simp only [List.length_take]
      omega
    by_cases hj16 : j < 16
    · have hmf : maskFirst p (samples.take 16) = j := by
        apply maskFirst_eq_first p (samples.take 16) j (by omega)
        · rw [List.getD_eq_getElem?_getD, List.getElem?_take, if_pos hj16,
            ← List.getD_eq_getElem?_getD]
          exact hp
        · intro i hi
          rw [List.getD_eq_getElem?_getD, List.getElem?_take,
            if_pos (show i < 16 by omega), ← List.getD_eq_getElem?_getD]
          exact hfirst i hi
      rw [hmf, if_pos hj16]
    · have hmf : maskFirst p (samples.take 16) = 16 := by
        have hh := maskFirst_eq_length p (samples.take 16) ?_
        · rw [htake] at hh
          exact hh
        · intro i hi
          rw [htake] at hi
          rw [List.getD_eq_getElem?_getD, List.getElem?_take, if_pos hi,
            ← List.getD_eq_getElem?_getD]
          exact hfirst i (by omega)
      rw [hmf, if_neg (by omega)]
      have hgdrop : ∀ i, (samples.drop 16).getD i 0 = samples.getD (16 + i) 0 := by
        intro i
        rw [List.getD_eq_getElem?_getD, List.getD_eq_getElem?_getD,
          List.getElem?_drop]
      rw [ih (samples.drop 16) (j - 16) (by simp only [List.length_drop]; omega)
        (by omega)
        (by rw [hgdrop]; rw [show 16 + (j - 16) = j from by omega]; exact hp)
        (fun i hi => by rw [hgdrop]; exact hfirst (16 + i) (by omega))]
      rw [List.drop_drop]
      congr 2
      omega

theorem scan_for_found (p : Int → Bool) (samples : List Int) (j : Nat)
    (hj : j < 16 * (samples.length / 16)) (hp : p (samples.getD j 0) = true)
    (hfirst : ∀ i, i < j → p (samples.getD i 0) = false) :
    scan_for p samples = (true, samples.drop j) :=
  scanGroups_found p (samples.length / 16) samples j (by omega) hj hp hfirst

theorem scan_for_none (p : Int → Bool) (samples : List Int)
    (h : ∀ j, j < 16 * (samples.length / 16) → p (samples.getD j 0) = false) :
    scan_for p samples = (false, samples.drop (16 * (samples.length / 16))) :=
  scanGroups_none p (samples.length / 16) samples (by omega) h

theorem scan_for_shape (p : Int → Bool) (samples : List Int) :
    ((scan_for p samples).1 = true →
      ∃ k, k < 16 * (samples.length / 16) ∧ (scan_for p samples).2 = samples.drop k ∧
        p (samples.getD k 0) = true ∧ ∀ i, i < k → p (samples.getD i 0) = false) ∧
    ((scan_for p samples).1 = false →
      (scan_for p samples).2 = samples.drop (16 * (samples.length / 16))) := by
  by_cases hex : ∃ j, j < 16 * (samples.length / 16) ∧ p (samples.getD j 0) = true
  · have hspec := Nat.find_spec hex
    have hres : scan_for p samples = (true, samples.drop (Nat.find hex)) := by
      apply scan_for_found p samples (Nat.find hex) hspec.1 hspec.2
      intro i hi
      have hmin := Nat.find_min hex hi
      by_cases hp : p (samples.getD i 0) = true
      · exact absurd ⟨by omega, hp⟩ hmin
      · simpa using hp
    rw [hres]
    constructor
    · intro _
      exact ⟨Nat.find hex, hspec.1, rfl, hspec.2, fun i hi => by
        have hmin := Nat.find_min hex hi
        by_cases hp : p (samples.getD i 0) = true
        · exact absurd ⟨by omega, hp⟩ hmin
        · simpa using hp⟩
    · intro hfalse
      simp at hfalse
  · have hres := scan_for_none p samples ?_
    · rw [hres]
      constructor
      · intro htrue
        simp at htrue
      · intro _
        rfl
    · intro j hj
      by_cases hp : p (samples.getD j 0) = true
      · exact absurd ⟨j, hj, hp⟩ hex
      · simpa using hp

theorem getD_drop_zero (l : List Int) (k : Nat) :
    (l.drop k).getD 0 0 = l.getD k 0 := by
  rw [List.getD_eq_getElem?_getD, List.getD_eq_getElem?_getD, List.getElem?_drop]
  norm_num

theorem scanLoop_below_report (fuel : Nat) (lv bl ab : Int) (filter : EdgeFilter)
    (s : List Int) (j : Nat) (hfil : filter ≠ EdgeFilter.Falling)
    (hj : j < 16 * (s.length / 16)) (hp : ab < s.getD j 0)
    (hfirst : ∀ i, i < j → ¬ ab < s.getD i 0) :
    scanLoop (fuel + 1) ⟨State.Below, lv, bl, ab⟩ filter s =
      (⟨State.Above, lv, bl, ab⟩, s.drop j, some Edge.Rising) := by
  have hsf : scan_for (fun x => decide (ab < x)) s = (true, s.drop j) := by
    apply scan_for_found _ s j hj (decide_eq_true hp)
    intro i hi
    exact decide_eq_false (hfirst i hi)
  cases filter with
  | Falling => exact absurd rfl hfil
  | Both => rw [scanLoop]; dsimp only; rw [hsf]; simp
  | Rising => rw [scanLoop]; dsimp only; rw [hsf]; simp

theorem scanLoop_above_report (fuel : Nat) (lv bl ab : Int) (filter : EdgeFilter)
    (s : List Int) (j : Nat) (hfil : filter ≠ EdgeFilter.Rising)
    (hj : j < 16 * (s.length / 16)) (hp : s.getD j 0 < bl)
    (hfirst : ∀ i, i < j → ¬ s.getD i 0 < bl) :
    scanLoop (fuel + 1) ⟨State.Above, lv, bl, ab⟩ filter s =
      (⟨State.Below, lv, bl, ab⟩, s.drop j, some Edge.Falling) := by
  have hsf : scan_for (fun x => decide (x < bl)) s = (true, s.drop j) := by
    apply scan_for_found _ s j hj (decide_eq_true hp)
    intro i hi
    exact decide_eq_false (hfirst i hi)
  cases filter with
  | Rising => exact absurd rfl hfil
  | Both => rw [scanLoop]; dsimp only; rw [hsf]; simp
  | Falling => rw [scanLoop]; dsimp only; rw [hsf]; simp

theorem scanLoop_below_none (fuel : Nat) (lv bl ab : Int) (filter : EdgeFilter)
    (s : List Int) (hnone : ∀ i, i < 16 * (s.length / 16) → ¬ ab < s.getD i 0) :
    scanLoop (fuel + 1) ⟨State.Below, lv, bl, ab⟩ filter s =
      (⟨State.Below, lv, bl, ab⟩, s.drop (16 * (s.length / 16)), none) := by
  have hsf : scan_for (fun x => decide (ab < x)) s =
      (false, s.drop (16 * (s.length / 16))) := by
    apply scan_for_none _ s
    intro i hi
    exact decide_eq_false (hnone i hi)
  cases filter with
  | Both => rw [scanLoop]; dsimp only; rw [hsf]; simp
  | Rising => rw [scanLoop]; dsimp only; rw [hsf]; simp
  | Falling => rw [scanLoop]; dsimp only; rw [hsf]; simp

theorem scanLoop_above_none (fuel : Nat) (lv bl ab : Int) (filter : EdgeFilter)
    (s : List Int) (hnone : ∀ i, i < 16 * (s.length / 16) → ¬ s.getD i 0 < bl) :
    scanLoop (fuel + 1) ⟨State.Above, lv, bl, ab⟩ filter s =
      (⟨State.Above, lv, bl, ab⟩, s.drop (16 * (s.length / 16)), none) := by
  have hsf : scan_for (fun x => decide (x < bl)) s =
      (false, s.drop (16 * (s.length / 16))) := by
    apply scan_for_none _ s
    intro i hi
    exact decide_eq_false (hnone i hi)
  cases filter with
  | Both => rw [scanLoop]; dsimp only; rw [hsf]; simp
  | Rising => rw [scanLoop]; dsimp only; rw [hsf]; simp
  | Falling => rw [scanLoop]; dsimp only; rw [hsf]; simp

theorem scanLoop_below_excluded (fuel : Nat) (lv bl ab : Int)
    (s : List Int) (j : Nat)
    (hj : j < 16 * (s.length / 16)) (hp : ab < s.getD j 0)
    (hfirst : ∀ i, i < j → ¬ ab < s.getD i 0) :
    scanLoop (fuel + 1) ⟨State.Below, lv, bl, ab⟩ EdgeFilter.Falling s =
      scanLoop fuel ⟨State.Above, lv, bl, ab⟩ EdgeFilter.Falling (s.drop j) := by
  have hsf : scan_for (fun x => decide (ab < x)) s = (true, s.drop j) := by
    apply scan_for_found _ s j hj (decide_eq_true hp)
    intro i hi
    exact decide_eq_false (hfirst i hi)
  rw [scanLoop]
  dsimp only
  rw [hsf]
  simp

theorem scanLoop_above_excluded (fuel : Nat) (lv bl ab : Int)
    (s : List Int) (j : Nat)
    (hj : j < 16 * (s.length / 16)) (hp : s.getD j 0 < bl)
    (hfirst : ∀ i, i < j → ¬ s.getD i 0 < bl) :
    scanLoop (fuel + 1) ⟨State.Above, lv, bl, ab⟩ EdgeFilter.Rising s =
      scanLoop fuel ⟨State.Below, lv, bl, ab⟩ EdgeFilter.Rising (s.drop j) := by
  have hsf : scan_for (fun x => decide (x < bl)) s = (true, s.drop j) := by
    apply scan_for_found _ s j hj (decide_eq_true hp)
    intro i hi
    exact decide_eq_false (hfirst i hi)
  rw [scanLoop]
  dsimp only
  rw [hsf]
  simp

theorem scanLoop_below_nf (fuel : Nat) (lv bl ab : Int) (filter : EdgeFilter)
    (s : List Int) (hf : (scan_for (fun x => decide (ab < x)) s).1 = false) :
    scanLoop (fuel + 1) ⟨State.Below, lv, bl, ab⟩ filter s =
      (⟨State.Below, lv, bl, ab⟩,
        (scan_for (fun x => decide (ab < x)) s).2, none) := by
  cases filter <;> (rw [scanLoop]; dsimp only; rw [if_neg (by rw [hf]; simp)])

theorem scanLoop_above_nf (fuel : Nat) (lv bl ab : Int) (filter : EdgeFilter)
    (s : List Int) (hf : (scan_for (fun x => decide (x < bl)) s).1 = false) :
    scanLoop (fuel + 1) ⟨State.Above, lv, bl, ab⟩ filter s =
      (⟨State.Above, lv, bl, ab⟩,
        (scan_for (fun x => decide (x < bl)) s).2, none) := by
  cases filter <;> (rw [scanLoop]; dsimp only; rw [if_neg (by rw [hf]; simp)])

/-- Master pointer-advancement lemma for scan_generic from a non-Fresh state:
the remaining slice is always a suffix `s.drop k`; on `none` the consumed
count leaves fewer than 16 trailing samples and is a multiple of 16 when the
trigger is unchanged; on an edge the head of the remaining slice is the
crossing sample. -/
theorem scan_generic_shape (t : Trigger) (s : List Int) (filter : EdgeFilter)
    (hst : t.state ≠ State.Fresh) :
    ∃ k, k ≤ s.length ∧ (t.scan_generic s filter).2.1 = s.drop k ∧
      ((t.scan_generic s filter).2.2 = none →
        (s.length - k ≤ 15 ∧ ((t.scan_generic s filter).1 = t → k % 16 = 0))) ∧
      (∀ e, (t.scan_generic s filter).2.2 = some e →
        k < s.length ∧
        (e = Edge.Rising →
          (t.scan_generic s filter).1.state = State.Above ∧ t.above < s.getD k 0) ∧
        (e = Edge.Falling →
          (t.scan_generic s filter).1.state = State.Below ∧ s.getD k 0 < t.below)) := by
  obtain ⟨st, lv, bl, ab⟩ := t
  cases st with
  | Fresh => exact absurd rfl hst
  | Below =>
    have hR : Trigger.scan_generic ⟨State.Below, lv, bl, ab⟩ s filter =
        scanLoop (s.length + 1 + 1) ⟨State.Below, lv, bl, ab⟩ filter s := rfl
    rw [hR]
    have hsh := scan_for_shape (fun x => decide (ab < x)) s
    by_cases hf : (scan_for (fun x => decide (ab < x)) s).1 = true
    · obtain ⟨k, hk, hdrop, hpk, hfirstk⟩ := hsh.1 hf
      have hp2 : ab < s.getD k 0 := of_decide_eq_true hpk
      have hfirst2 : ∀ i, i < k → ¬ ab < s.getD i 0 :=
        fun i hi => of_decide_eq_false (hfirstk i hi)
      cases filter with
      | Both =>
        rw [scanLoop_below_report (s.length + 1) lv bl ab EdgeFilter.Both s k
          (by decide) hk hp2 hfirst2]
        refine ⟨k, by omega, rfl, fun h => Option.noConfusion h, ?_⟩
        intro e he
        have he2 := Option.some.inj he
        subst he2
        exact ⟨by omega, fun _ => ⟨rfl, hp2⟩, fun h => absurd h (by decide)⟩
      | Rising =>
        rw [scanLoop_below_report (s.length + 1) lv bl ab EdgeFilter.Rising s k
          (by decide) hk hp2 hfirst2]
        refine ⟨k, by omega, rfl, fun h => Option.noConfusion h, ?_⟩
        intro e he
        have he2 := Option.some.inj he
        subst he2
        exact ⟨by omega, fun _ => ⟨rfl, hp2⟩, fun h => absurd h (by decide)⟩
      | Falling =>
        rw [scanLoop_below_excluded (s.length + 1) lv bl ab s k hk hp2 hfirst2]
        have hsh2 := scan_for_shape (fun x => decide (x < bl)) (s.drop k)
        have hdlen : (s.drop k).length = s.length - k := List.length_drop ..
        by_cases hf2 : (scan_for (fun x => decide (x < bl)) (s.drop k)).1 = true
        · obtain ⟨k2, hk2, hdrop2, hpk2, hfirstk2⟩ := hsh2.1 hf2
          have hp2b : (s.drop k).getD k2 0 < bl := of_decide_eq_true hpk2
          have hfirst2b : ∀ i, i < k2 → ¬ (s.drop k).getD i 0 < bl :=
            fun i hi => of_decide_eq_false (hfirstk2 i hi)
          rw [scanLoop_above_report s.length lv bl ab EdgeFilter.Falling (s.drop k) k2
            (by decide) hk2 hp2b hfirst2b]
          have hgd : (s.drop k).getD k2 0 = s.getD (k + k2) 0 := by
            rw [List.getD_eq_getElem?_getD, List.getD_eq_getElem?_getD,
              List.getElem?_drop]
          have hk2len : k2 < s.length - k := by
            rw [hdlen] at hk2
            omega
          refine ⟨k + k2, by omega, ?_, fun h => Option.noConfusion h, ?_⟩
          · rw [List.drop_drop]
          · intro e he
            have he2 := Option.some.inj he
            subst he2
            refine ⟨by omega, fun h => absurd h (by decide), fun _ => ⟨rfl, ?_⟩⟩
            rw [← hgd]
            exact hp2b
        · have hf2f : (scan_for (fun x => decide (x < bl)) (s.drop k)).1 = false :=
            Bool.eq_false_iff.mpr hf2
          rw [scanLoop_above_nf s.length lv bl ab EdgeFilter.Falling (s.drop k) hf2f]
          have hdropv := hsh2.2 hf2f
          rw [hdropv, hdlen]
          refine ⟨k + 16 * ((s.length - k) / 16), by omega, ?_, ?_, ?_⟩
          · rw [List.drop_drop]
          · intro _
            refine ⟨by omega, fun ht => ?_⟩
            exact State.noConfusion (congrArg Trigger.state ht)
          · intro e he
            exact Option.noConfusion he
    · have hff : (scan_for (fun x => decide (ab < x)) s).1 = false := Bool.eq_false_iff.mpr hf
      rw [scanLoop_below_nf (s.length + 1) lv bl ab filter s hff]
      have hdropv := hsh.2 hff
      rw [hdropv]
      refine ⟨16 * (s.length / 16), by omega, rfl, ?_, ?_⟩
      · intro _
        exact ⟨by omega, fun _ => by omega⟩
      · intro e he
        exact Option.noConfusion he
  | Above =>
    have hR : Trigger.scan_generic ⟨State.Above, lv, bl, ab⟩ s filter =
        scanLoop (s.length + 1 + 1) ⟨State.Above, lv, bl, ab⟩ filter s := rfl
    rw [hR]
    have hsh := scan_for_shape (fun x => decide (x < bl)) s
    by_cases hf : (scan_for (fun x => decide (x < bl)) s).1 = true
    · obtain ⟨k, hk, hdrop, hpk, hfirstk⟩ := hsh.1 hf
      have hp2 : s.getD k 0 < bl := of_decide_eq_true hpk
      have hfirst2 : ∀ i, i < k → ¬ s.getD i 0 < bl :=
        fun i hi => of_decide_eq_false (hfirstk i hi)
      cases filter with
      | Both =>
        rw [scanLoop_above_report (s.length + 1) lv bl ab EdgeFilter.Both s k
          (by decide) hk hp2 hfirst2]
        refine ⟨k, by omega, rfl, fun h => Option.noConfusion h, ?_⟩
        intro e he
        have he2 := Option.some.inj he
        subst he2
        exact ⟨by omega, fun h => absurd h (by decide), fun _ => ⟨rfl, hp2⟩⟩
      | Falling =>
        rw [scanLoop_above_report (s.length + 1) lv bl ab EdgeFilter.Falling s k
          (by decide) hk hp2 hfirst2]
        refine ⟨k, by omega, rfl, fun h => Option.noConfusion h, ?_⟩
        intro e he
        have he2 := Option.some.inj he
        subst he2
        exact ⟨by omega, fun h => absurd h (by decide), fun _ => ⟨rfl, hp2⟩⟩
      | Rising =>
        rw [scanLoop_above_excluded (s.length + 1) lv bl ab s k hk hp2 hfirst2]
        have hsh2 := scan_for_shape (fun x => decide (ab < x)) (s.drop k)
        have hdlen : (s.drop k).length = s.length - k := List.length_drop ..
        by_cases hf2 : (scan_for (fun x => decide (ab < x)) (s.drop k)).1 = true
        · obtain ⟨k2, hk2, hdrop2, hpk2, hfirstk2⟩ := hsh2.1 hf2
          have hp2b : ab < (s.drop k).getD k2 0 := of_decide_eq_true hpk2
          have hfirst2b : ∀ i, i < k2 → ¬ ab < (s.drop k).getD i 0 :=
            fun i hi => of_decide_eq_false (hfirstk2 i hi)
          rw [scanLoop_below_report s.length lv bl ab EdgeFilter.Rising (s.drop k) k2
            (by decide) hk2 hp2b hfirst2b]
          have hgd : (s.drop k).getD k2 0 = s.getD (k + k2) 0 := by
            rw [List.getD_eq_getElem?_getD, List.getD_eq_getElem?_getD,
              List.getElem?_drop]
          have hk2len : k2 < s.length - k := by
            rw [hdlen] at hk2
            omega
          refine ⟨k + k2, by omega, ?_, fun h => Option.noConfusion h, ?_⟩
          · rw [List.drop_drop]
          · intro e he
            have he2 := Option.some.inj he
            subst he2
            refine ⟨by omega, fun _ => ⟨rfl, ?_⟩, fun h => absurd h (by decide)⟩
            rw [← hgd]
            exact hp2b
        · have hf2f : (scan_for (fun x => decide (ab < x)) (s.drop k)).1 = false :=
            Bool.eq_false_iff.mpr hf2
          rw [scanLoop_below_nf s.length lv bl ab EdgeFilter.Rising (s.drop k) hf2f]
          have hdropv := hsh2.2 hf2f
          rw [hdropv, hdlen]
          refine ⟨k + 16 * ((s.length - k) / 16), by omega, ?_, ?_, ?_⟩
          · rw [List.drop_drop]
          · intro _
            refine ⟨by omega, fun ht => ?_⟩
            exact State.noConfusion (congrArg Trigger.state ht)
          · intro e he
            exact Option.noConfusion he
    · have hff : (scan_for (fun x => decide (x < bl)) s).1 = false := Bool.eq_false_iff.mpr hf
      rw [scanLoop_above_nf (s.length + 1) lv bl ab filter s hff]
      have hdropv := hsh.2 hff
      rw [hdropv]
      refine ⟨16 * (s.length / 16), by omega, rfl, ?_, ?_⟩
      · intro _
        exact ⟨by omega, fun _ => by omega⟩
      · intro e he
        exact Option.noConfusion he

/-- C2 counterexample: a Trigger in state Below with `above_thr = 51`
scanning the slice `[80]` with filter Both.  The first (and only) sample is
strictly greater than `above_thr`, yet `scan` reports no edge and the state
stays Below, because the sample sits in an incomplete trailing group
(fewer than 16 samples). -/
theorem trigger_scan_edges_cex :
    Trigger.scan_generic ⟨State.Below, 50, 49, 51⟩ [80] EdgeFilter.Both =
      (⟨State.Below, 50, 49, 51⟩, [80], none) ∧ (51 : Int) < 80 := by
  decide

/-- C2 amended: restricted to the complete 16-sample groups (the first
`16·⌊n/16⌋` samples of the scanned slice), `Trigger::scan` behaves exactly as
claimed: (a, b) in state Fresh the first sample only selects Below
(`sample < level`) or Above (`sample ≥ level`) without reporting an edge;
(c) from Below it reports a Rising edge exactly at the first sample strictly
greater than `above_thr` and moves the state to Above; (d) from Above it
reports a Falling edge exactly at the first sample strictly less than
`below_thr` and moves the state to Below; (e, f) if no sample in the complete
groups crosses (in particular when samples merely equal `above_thr` or
`below_thr`, which never fire), no edge is reported and the state is
unchanged; (g, h) when the detected edge direction is excluded by the
EdgeFilter, the state transition still occurs and scanning continues from the
crossing sample. -/
theorem trigger_scan_edges :
    (∀ (t : Trigger) (filter : EdgeFilter), t.state = State.Fresh →
      t.scan_generic [] filter = (t, [], none)) ∧
    (∀ (t : Trigger) (x : Int) (rest : List Int) (filter : EdgeFilter),
      t.state = State.Fresh →
      t.scan_generic (x :: rest) filter =
        Trigger.scan_generic
          { t with state := if x < t.level then State.Below else State.Above }
          rest filter) ∧
    (∀ (t : Trigger) (s : List Int) (j : Nat) (filter : EdgeFilter),
      t.state = State.Below → filter ≠ EdgeFilter.Falling →
      j < 16 * (s.length / 16) → t.above < s.getD j 0 →
      (∀ i, i < j → ¬ t.above < s.getD i 0) →
      t.scan_generic s filter =
        ({ t with state := State.Above }, s.drop j, some Edge.Rising)) ∧
    (∀ (t : Trigger) (s : List Int) (j : Nat) (filter : EdgeFilter),
      t.state = State.Above → filter ≠ EdgeFilter.Rising →
      j < 16 * (s.length / 16) → s.getD j 0 < t.below →
      (∀ i, i < j → ¬ s.getD i 0 < t.below) →
      t.scan_generic s filter =
        ({ t with state := State.Below }, s.drop j, some Edge.Falling)) ∧
    (∀ (t : Trigger) (s : List Int) (filter : EdgeFilter),
      t.state = State.Below →
      (∀ i, i < 16 * (s.length / 16) → ¬ t.above < s.getD i 0) →
      t.scan_generic s filter = (t, s.drop (16 * (s.length / 16)), none)) ∧
    (∀ (t : Trigger) (s : List Int) (filter : EdgeFilter),
      t.state = State.Above →
      (∀ i, i < 16 * (s.length / 16) → ¬ s.getD i 0 < t.below) →
      t.scan_generic s filter = (t, s.drop (16 * (s.length / 16)), none)) ∧
    (∀ (t : Trigger) (s : List Int) (j : Nat),
      t.state = State.Below →
      j < 16 * (s.length / 16) → t.above < s.getD j 0 →
      (∀ i, i < j → ¬ t.above < s.getD i 0) →
      t.scan_generic s EdgeFilter.Falling =
        scanLoop (s.length + 1) { t with state := State.Above }
          EdgeFilter.Falling (s.drop j)) ∧
    (∀ (t : Trigger) (s : List Int) (j : Nat),
      t.state = State.Above →
      j < 16 * (s.length / 16) → s.getD j 0 < t.below →
      (∀ i, i < j → ¬ s.getD i 0 < t.below) →
      t.scan_generic s EdgeFilter.Rising =
        scanLoop (s.length + 1) { t with state := State.Below }
          EdgeFilter.Rising (s.drop j)) := by
  refine ⟨?_, ?_, ?_, ?_, ?_, ?_, ?_, ?_⟩
  · intro t filter hst
    obtain ⟨st, lv, bl, ab⟩ := t
    cases hst
    rfl
  · intro t x rest filter hst
    obtain ⟨st, lv, bl, ab⟩ := t
    cases hst
    by_cases hx : x < lv
    · simp only [Trigger.scan_generic, if_pos hx]
    · simp only [Trigger.scan_generic, if_neg hx]
  · intro t s j filter hst hfil hj hp hfirst
    obtain ⟨st, lv, bl, ab⟩ := t
    cases hst
    exact scanLoop_below_report (s.length + 1) lv bl ab filter s j hfil hj hp hfirst
  · intro t s j filter hst hfil hj hp hfirst
    obtain ⟨st, lv, bl, ab⟩ := t
    cases hst
    exact scanLoop_above_report (s.length + 1) lv bl ab filter s j hfil hj hp hfirst
  · intro t s filter hst hnone
    obtain ⟨st, lv, bl, ab⟩ := t
    cases hst
    exact scanLoop_below_none (s.length + 1) lv bl ab filter s hnone
  · intro t s filter hst hnone
    obtain ⟨st, lv, bl, ab⟩ := t
    cases hst
    exact scanLoop_above_none (s.length + 1) lv bl ab filter s hnone
  · intro t s j hst hj hp hfirst
    obtain ⟨st, lv, bl, ab⟩ := t
    cases hst
    exact scanLoop_below_excluded (s.length + 1) lv bl ab s j hj hp hfirst
  · intro t s j hst hj hp hfirst
    obtain ⟨st, lv, bl, ab⟩ := t
    cases hst
    exact scanLoop_above_excluded (s.length + 1) lv bl ab s j hj hp hfirst

/-- Concrete instances of `trigger_scan_edges`: a fresh trigger on `[]` and on
`[0]`; a Below trigger detecting the rising crossing at index 9 of a 16-sample
block; an Above trigger detecting the falling crossing at index 9; no-crossing
scans of constant blocks; and the two excluded-direction continuations. -/
theorem trigger_scan_edges_witness :
    (Trigger.scan_generic (Trigger.new 50 1) [] EdgeFilter.Both =
      (Trigger.new 50 1, [], none)) ∧
    (Trigger.scan_generic (Trigger.new 50 1) [0] EdgeFilter.Both =
      Trigger.scan_generic
        { Trigger.new 50 1 with
            state := if (0 : Int) < (Trigger.new 50 1).level then State.Below
                     else State.Above } [] EdgeFilter.Both) ∧
    (Trigger.scan_generic ⟨State.Below, 50, 49, 51⟩
        [10, 10, 10, 10, 10, 10, 10, 10, 10, 80, 80, 80, 80, 80, 80, 80]
        EdgeFilter.Both =
      (⟨State.Above, 50, 49, 51⟩,
        [10, 10, 10, 10, 10, 10, 10, 10, 10, 80, 80, 80, 80, 80, 80,
          80].drop 9, some Edge.Rising)) ∧
    (Trigger.scan_generic ⟨State.Above, 50, 49, 51⟩
        [80, 80, 80, 80, 80, 80, 80, 80, 80, 20, 20, 20, 20, 20, 20, 20]
        EdgeFilter.Both =
      (⟨State.Below, 50, 49, 51⟩,
        [80, 80, 80, 80, 80, 80, 80, 80, 80, 20, 20, 20, 20, 20, 20,
          20].drop 9, some Edge.Falling)) ∧
    (Trigger.scan_generic ⟨State.Below, 50, 49, 51⟩
        [51, 51, 51, 51, 51, 51, 51, 51, 51, 51, 51, 51, 51, 51, 51, 51]
        EdgeFilter.Both =
      (⟨State.Below, 50, 49, 51⟩,
        [51, 51, 51, 51, 51, 51, 51, 51, 51, 51, 51, 51, 51, 51, 51,
          51].drop (16 * (16 / 16)), none)) ∧
    (Trigger.scan_generic ⟨State.Above, 50, 49, 51⟩
        [49, 49, 49, 49, 49, 49, 49, 49, 49, 49, 49, 49, 49, 49, 49, 49]
        EdgeFilter.Both =
      (⟨State.Above, 50, 49, 51⟩,
        [49, 49, 49, 49, 49, 49, 49, 49, 49, 49, 49, 49, 49, 49, 49,
          49].drop (16 * (16 / 16)), none)) ∧
    (Trigger.scan_generic ⟨State.Below, 50, 49, 51⟩
        [10, 10, 10, 10, 10, 10, 10, 10, 10, 80, 80, 80, 80, 80, 80, 80]
        EdgeFilter.Falling =
      scanLoop (16 + 1) ⟨State.Above, 50, 49, 51⟩ EdgeFilter.Falling
        ([10, 10, 10, 10, 10, 10, 10, 10, 10, 80, 80, 80, 80, 80, 80,
          80].drop 9)) ∧
    (Trigger.scan_generic ⟨State.Above, 50, 49, 51⟩
        [80, 80, 80, 80, 80, 80, 80, 80, 80, 20, 20, 20, 20, 20, 20, 20]
        EdgeFilter.Rising =
      scanLoop (16 + 1) ⟨State.Below, 50, 49, 51⟩ EdgeFilter.Rising
        ([80, 80, 80, 80, 80, 80, 80, 80, 80, 20, 20, 20, 20, 20, 20,
          20].drop 9)) := by
  refine ⟨trigger_scan_edges.1 (Trigger.new 50 1) EdgeFilter.Both rfl,
    trigger_scan_edges.2.1 (Trigger.new 50 1) 0 [] EdgeFilter.Both rfl,
    trigger_scan_edges.2.2.1 ⟨State.Below, 50, 49, 51⟩ _ 9 EdgeFilter.Both rfl
      (by decide) (by decide) (by decide) (by decide),
    trigger_scan_edges.2.2.2.1 ⟨State.Above, 50, 49, 51⟩ _ 9 EdgeFilter.Both rfl
      (by decide) (by decide) (by decide) (by decide),
    trigger_scan_edges.2.2.2.2.1 ⟨State.Below, 50, 49, 51⟩ _ EdgeFilter.Both rfl
      (by decide),
    trigger_scan_edges.2.2.2.2.2.1 ⟨State.Above, 50, 49, 51⟩ _ EdgeFilter.Both rfl
      (by decide),
    trigger_scan_edges.2.2.2.2.2.2.1 ⟨State.Below, 50, 49, 51⟩ _ 9 rfl
      (by decide) (by decide) (by decide),
    trigger_scan_edges.2.2.2.2.2.2.2 ⟨State.Above, 50, 49, 51⟩ _ 9 rfl
      (by decide) (by decide) (by decide)⟩

/-- C7 counterexample: a Below trigger scanning one 16-sample block whose
rising crossing (at offset 9) is excluded by the Falling filter: `find`
returns `None` having consumed 9 samples — 9 is not a multiple of the
16-sample group size (the slice was re-scanned from the crossing sample). -/
theorem trigger_scan_advancement_cex :
    Trigger.find ⟨State.Below, 50, 49, 51⟩
        [10, 10, 10, 10, 10, 10, 10, 10, 10, 80, 80, 80, 80, 80, 80, 80]
        EdgeFilter.Falling =
      (⟨State.Above, 50, 49, 51⟩, 9, none) ∧ (9 : Nat) % 16 ≠ 0 := by
  decide

/-- C7 amended: for every Trigger not in state Fresh and every input slice,
if `scan` returns an edge the slice pointer rests exactly on the sample that
caused the edge (the head of the remaining slice crosses the corresponding
threshold); if it returns `None`, at most 15 trailing samples remain
unprocessed, and the number of consumed samples is a multiple of the
16-sample group size whenever the trigger came back unchanged (after a state
transition whose direction the filter excluded, the consumed count is the
crossing offset plus a multiple of 16 instead). -/
theorem trigger_scan_advancement :
    (∀ (t t2 : Trigger) (s s2 : List Int) (filter : EdgeFilter) (e : Edge),
      t.state ≠ State.Fresh →
      t.scan_generic s filter = (t2, s2, some e) →
      (∃ k, k < s.length ∧ s2 = s.drop k) ∧ s2 ≠ [] ∧
      (e = Edge.Rising → t2.state = State.Above ∧ t.above < s2.getD 0 0) ∧
      (e = Edge.Falling → t2.state = State.Below ∧ s2.getD 0 0 < t.below)) ∧
    (∀ (t t2 : Trigger) (s s2 : List Int) (filter : EdgeFilter),
      t.state ≠ State.Fresh →
      t.scan_generic s filter = (t2, s2, none) →
      s2.length ≤ 15 ∧ (∃ k, k ≤ s.length ∧ s2 = s.drop k) ∧
      (t2 = t → (s.length - s2.length) % 16 = 0)) := by
  constructor
  · intro t t2 s s2 filter e hst heq
    obtain ⟨k, hks, hdrop, hnone, hsome⟩ := scan_generic_shape t s filter hst
    rw [heq] at hdrop hsome
    have hs2 : s2 = s.drop k := hdrop
    obtain ⟨hklen, hrise, hfall⟩ := hsome e rfl
    have hhead : s2.getD 0 0 = s.getD k 0 := by
      rw [hs2]
      exact getD_drop_zero s k
    refine ⟨⟨k, hklen, hs2⟩, ?_, ?_, ?_⟩
    · intro hnil
      rw [hs2, List.drop_eq_nil_iff] at hnil
      omega
    · intro he
      obtain ⟨h1, h2⟩ := hrise he
      exact ⟨h1, by rw [hhead]; exact h2⟩
    · intro he
      obtain ⟨h1, h2⟩ := hfall he
      exact ⟨h1, by rw [hhead]; exact h2⟩
  · intro t t2 s s2 filter hst heq
    obtain ⟨k, hks, hdrop, hnone, hsome⟩ := scan_generic_shape t s filter hst
    rw [heq] at hdrop hnone
    have hs2 : s2 = s.drop k := hdrop
    obtain ⟨h15, hmult⟩ := hnone rfl
    refine ⟨?_, ⟨k, hks, hs2⟩, ?_⟩
    · rw [hs2, List.length_drop]
      omega
    · intro ht2
      have hk16 := hmult ht2
      rw [hs2, List.length_drop]
      have : s.length - (s.length - k) = k := by omega
      rw [this]
      exact hk16

/-- Concrete instances of `trigger_scan_advancement`: a Below trigger
detecting the rising edge at offset 9 of a 16-sample block (the remaining
slice head is the crossing sample 80), and a Below trigger scanning a
constant 16-sample block (no edge, all 16 samples consumed). -/
theorem trigger_scan_advancement_witness :
    ((∃ k, k < ([10, 10, 10, 10, 10, 10, 10, 10, 10, 80, 80, 80, 80, 80, 80,
          80] : List Int).length ∧
        ([80, 80, 80, 80, 80, 80, 80] : List Int) =
          ([10, 10, 10, 10, 10, 10, 10, 10, 10, 80, 80, 80, 80, 80, 80,
            80] : List Int).drop k) ∧
      ([80, 80, 80, 80, 80, 80, 80] : List Int) ≠ [] ∧
      (Edge.Rising = Edge.Rising →
        (⟨State.Above, 50, 49, 51⟩ : Trigger).state = State.Above ∧
        (⟨State.Below, 50, 49, 51⟩ : Trigger).above <
          ([80, 80, 80, 80, 80, 80, 80] : List Int).getD 0 0) ∧
      (Edge.Rising = Edge.Falling →
        (⟨State.Above, 50, 49, 51⟩ : Trigger).state = State.Below ∧
        ([80, 80, 80, 80, 80, 80, 80] : List Int).getD 0 0 <
          (⟨State.Below, 50, 49, 51⟩ : Trigger).below)) ∧
    (([] : List Int).length ≤ 15 ∧
      (∃ k, k ≤ ([10, 10, 10, 10, 10, 10, 10, 10, 10, 10, 10, 10, 10, 10, 10,
          10] : List Int).length ∧
        ([] : List Int) =
          ([10, 10, 10, 10, 10, 10, 10, 10, 10, 10, 10, 10, 10, 10, 10,
            10] : List Int).drop k) ∧
      ((⟨State.Below, 50, 49, 51⟩ : Trigger) = ⟨State.Below, 50, 49, 51⟩ →
        (([10, 10, 10, 10, 10, 10, 10, 10, 10, 10, 10, 10, 10, 10, 10,
            10] : List Int).length - ([] : List Int).length) % 16 = 0)) :=
  ⟨trigger_scan_advancement.1 ⟨State.Below, 50, 49, 51⟩ ⟨State.Above, 50, 49, 51⟩
      _ _ EdgeFilter.Both Edge.Rising (by decide) (by decide),
   trigger_scan_advancement.2 ⟨State.Below, 50, 49, 51⟩ ⟨State.Below, 50, 49, 51⟩
      _ _ EdgeFilter.Both (by decide) (by decide)⟩

/-! ## Theorems: ring buffer read after append (C1) -/

theorem writeSeq_data_length (bs : List Nat) :
    ∀ s start, (RingSlice.writeSeq s start bs).data.length = s.data.length := by
  induction bs with
  | nil => intro s start; rfl
  | cons b rest ih =>
    intro s start
    simp only [RingSlice.writeSeq]
    rw [ih]
    exact List.length_set ..

theorem writeSeq_getD_untouched (bs : List Nat) :
    ∀ s start p, (∀ j, j < bs.length → (start + j) % s.data.length ≠ p) →
      (RingSlice.writeSeq s start bs).data.getD p 0 = s.data.getD p 0 := by
  induction bs with
  | nil => intro s start p _; rfl
  | cons b rest ih =>
    intro s start p h
    simp only [RingSlice.writeSeq]
    rw [ih]
    · have h0 : start % s.data.length ≠ p := by simpa using h 0 (by simp)
      rw [List.getD_eq_getElem?_getD, List.getD_eq_getElem?_getD,
        List.getElem?_set_ne h0]
    · intro j hj
      have h2 := h (j + 1) (by simp; omega)
      simp only [List.length_set]
      have harg : start + 1 + j = start + (j + 1) := by omega
      rw [harg]
      simpa using h2

theorem writeSeq_getD_at (bs : List Nat) :
    ∀ s start j, j < bs.length → bs.length ≤ s.data.length →
      (RingSlice.writeSeq s start bs).data.getD ((start + j) % s.data.length) 0 =
        bs.getD j 0 := by
  induction bs with
  | nil => intro s start j hj _; simp at hj
  | cons b rest ih =>
    intro s start j hj hlen
    have hLpos : 0 < s.data.length := by simp at hlen; omega
    match j with
    | 0 =>
      simp only [RingSlice.writeSeq]
      rw [writeSeq_getD_untouched]
      · have hlt : start % s.data.length < s.data.length := Nat.mod_lt _ hLpos
        rw [List.getD_eq_getElem?_getD]
        have hset : (s.data.set (start % s.data.length) b)[(start + 0) % s.data.length]? =
            some b := by
          simpa using List.getElem?_set_eq_of_lt b hlt
        rw [hset]
        simp
      · intro j2 hj2
        simp only [List.length_set]
        intro heq
        have hmodeq : Nat.ModEq s.data.length start (start + 1 + j2) := by
          unfold Nat.ModEq
          simpa using heq.symm
        have hdvd : s.data.length ∣ (start + 1 + j2) - start :=
          (Nat.modEq_iff_dvd' (by omega)).mp hmodeq
        have hsz : start + 1 + j2 - start = 1 + j2 := by omega
        rw [hsz] at hdvd
        have hle := Nat.le_of_dvd (by omega) hdvd
        simp at hlen hj2
        omega
    | j2 + 1 =>
      simp only [RingSlice.writeSeq]
      have ihres := ih ⟨s.data.set (start % s.data.length) b⟩ (start + 1) j2
        (by simp at hj; omega) (by simp only [List.length_set]; simp at hlen; omega)
      simp only [List.length_set] at ihres
      have harg : start + (j2 + 1) = start + 1 + j2 := by omega
      rw [harg]
      rw [ihres]
      simp

/-- C1: reading back what append wrote.  Conjuncts: (1) appending `bs` at
cursor index `i` and reading `bs.length` bytes back from index `i` returns
exactly `bs`, for every occupancy of the ring including writes that cross the
seam; (2) positions not covered by the write keep their previous (most
recently written) byte; (3) a read whose interval crosses the seam at `L`
returns the concatenation of the tail segment `[i, L)` and the head segment
`[0, (i+n) mod L)`. -/
theorem ringBuffer_read_append :
    (∀ (d : List Nat) (i : Nat) (bs : List Nat),
      i < d.length → bs.length ≤ d.length →
      (RingBuffer.append ⟨⟨d⟩, ⟨i, d.length⟩⟩ bs.length bs).bind
          (fun b2 => b2.read ⟨i, d.length⟩ bs.length) = some bs) ∧
    (∀ (d : List Nat) (i : Nat) (bs : List Nat) (p : Nat),
      bs.length ≤ d.length → (∀ j, j < bs.length → (i + j) % d.length ≠ p) →
      ((⟨d⟩ : RingSlice).writeSeq i bs).data.getD p 0 = d.getD p 0) ∧
    (∀ (d : List Nat) (i n : Nat),
      i < d.length → n ≤ d.length → d.length ≤ i + n →
      RingBuffer.read ⟨⟨d⟩, RingCursor.new d.length⟩ ⟨i, d.length⟩ n =
        some (d.drop i ++ d.take (i + n - d.length))) := by
  refine ⟨?_, ?_, ?_⟩
  · intro d i bs hi hbs
    rw [RingBuffer.append, if_pos ⟨hbs, Nat.le_refl _, hi⟩]
    have hbind : ∀ (x : RingBuffer) (f : RingBuffer → Option (List Nat)),
        (some x).bind f = f x := fun _ _ => rfl
    rw [hbind]
    dsimp only
    have hlen2 : ((⟨d⟩ : RingSlice).writeSeq i bs).data.length = d.length :=
      writeSeq_data_length ..
    rw [RingBuffer.read,
      if_pos (by simp only [RingSlice.len, hlen2]; exact ⟨trivial, hbs, hi⟩)]
    congr 1
    apply List.ext_getElem
    · simp only [RingSlice.sliceFrom, RingSlice.len, hlen2, List.length_take,
        List.length_map, List.length_range]
      omega
    · intro j h1 h2
      have hj : j < bs.length := h2
      simp only [RingSlice.sliceFrom, RingSlice.len, hlen2, List.getElem_take,
        List.getElem_map, List.getElem_range]
      have hw := writeSeq_getD_at bs ⟨d⟩ i j hj hbs
      dsimp only at hw
      rw [hw]
      exact List.getD_eq_getElem bs 0 hj
  · intro d i bs p hbs h
    exact writeSeq_getD_untouched bs ⟨d⟩ i p h
  · intro d i n hi hn hseam
    rw [RingBuffer.read, if_pos (by exact ⟨rfl, hn, hi⟩)]
    congr 1
    dsimp only
    apply List.ext_getElem
    · simp only [RingSlice.sliceFrom, RingSlice.len, List.length_take,
        List.length_map, List.length_range, List.length_append, List.length_drop]
      omega
    · intro j h1 h2
      have hjn : j < n := by
        simp only [RingSlice.sliceFrom, RingSlice.len, List.length_take,
          List.length_map, List.length_range] at h1
        omega
      simp only [RingSlice.sliceFrom, RingSlice.len, List.getElem_take,
        List.getElem_map, List.getElem_range]
      by_cases hcase : j < d.length - i
      · rw [List.getElem_append_left (by simp only [List.length_drop]; omega)]
        rw [List.getElem_drop]
        have hmod : (i + j) % d.length = i + j := Nat.mod_eq_of_lt (by omega)
        rw [hmod]
        exact List.getD_eq_getElem d 0 (by omega)
      · rw [List.getElem_append_right (by simp only [List.length_drop]; omega)]
        have hmod : (i + j) % d.length = i + j - d.length := by
          rw [Nat.mod_eq_sub_mod (by omega)]
          exact Nat.mod_eq_of_lt (by omega)
        rw [hmod, List.getD_eq_getElem d 0 (by omega : i + j - d.length < d.length)]
        simp only [List.getElem_take, List.length_drop]
        congr 1
        omega

/-- Concrete instance of `ringBuffer_read_append`: `L = 4`, append `[1, 2]`
at index `3` (crossing the seam) and read it back; untouched position `1`
keeps its byte; seam read on `[5, 6, 7, 8]` at `i = 3`, `n = 2` yields
`[8, 5]`. -/
theorem ringBuffer_read_append_witness :
    ((RingBuffer.append ⟨⟨[9, 9, 9, 9]⟩, ⟨3, 4⟩⟩ 2 [1, 2]).bind
        (fun b2 => b2.read ⟨3, 4⟩ 2) = some [1, 2]) ∧
    (((⟨[9, 9, 9, 9]⟩ : RingSlice).writeSeq 3 [1, 2]).data.getD 1 0 =
        [9, 9, 9, 9].getD 1 0) ∧
    (RingBuffer.read ⟨⟨[5, 6, 7, 8]⟩, RingCursor.new 4⟩ ⟨3, 4⟩ 2 = some [8, 5]) :=
  ⟨ringBuffer_read_append.1 [9, 9, 9, 9] 3 [1, 2] (by decide) (by decide),
   ringBuffer_read_append.2.1 [9, 9, 9, 9] 3 [1, 2] 1 (by decide) (by decide),
   ringBuffer_read_append.2.2 [5, 6, 7, 8] 3 2 (by decide) (by decide) (by decide)⟩

/-! ## Theorems: streamer (C4, C5) -/

theorem memory_size_eq : MEMORY_SIZE = 268435456 := rfl

theorem pages_shift (P : Nat) :
    (⟨P, false, false⟩ : Status).pages_moved <<< PAGE_BITS =
      (4096 * P) % MEMORY_SIZE := by
  show (P % 65536) <<< 12 = (4096 * P) % MEMORY_SIZE
  rw [Nat.shiftLeft_eq]
  rw [show ((2 : Nat) ^ 12) = 4096 from by norm_num]
  rw [show MEMORY_SIZE = 65536 * 4096 from rfl]
  rw [Nat.mul_comm 4096 P, Nat.mul_mod_mul_right]

theorem devMem_eq (S : Nat → Int) (H k : Nat) (h1 : k < H) (h2 : H ≤ k + MEMORY_SIZE) :
    devMem S H (k % MEMORY_SIZE) = S k := by
  have hM : MEMORY_SIZE = 268435456 := rfl
  rw [hM] at h2
  rw [devMem, hM, if_pos (by omega)]
  congr 1
  omega

theorem range_map_splice (S : Nat → Int) (n a c : Nat) (h : a ≤ c) :
    (List.range a).map (fun j => S (n + j)) ++
      (List.range (c - a)).map (fun j => S (n + a + j)) =
    (List.range c).map (fun j => S (n + j)) := by
  conv_rhs => rw [show c = a + (c - a) from by omega]
  rw [List.range_add, List.map_append, List.map_map]
  congr 1
  apply List.map_congr_left
  intro j _
  show S (n + a + j) = S (n + (a + j))
  rw [Nat.add_assoc]

theorem readLoop_spec (S : Nat → Int) (P : Nat) :
    ∀ (fuel : Nat), ∀ (n b : Nat), ∀ (acc : List Int), ∀ (dmas : List (Nat × Nat)),
      b + 2 ≤ fuel → n ≤ 4096 * P → 4096 * P < n + MEMORY_SIZE →
      readLoop S ⟨P, false, false⟩ fuel (some (n % MEMORY_SIZE)) b acc dmas =
        some (acc ++ (List.range (min b (4096 * P - n))).map (fun j => S (n + j)),
              dmas ++ dmaSplit (n % MEMORY_SIZE) (min b (4096 * P - n)),
              some ((n + min b (4096 * P - n)) % MEMORY_SIZE)) := by
  intro fuel
  induction fuel with
  | zero =>
    intro n b acc dmas hf h1 h2
    exact absurd hf (by omega)
  | succ fuel ih =>
    intro n b acc dmas hf h1 h2
    have hM : MEMORY_SIZE = 268435456 := rfl
    rw [readLoop]
    by_cases hb : b = 0
    · subst hb
      rw [if_pos rfl]
      rw [show min 0 (4096 * P - n) = 0 from by omega]
      simp [dmaSplit]
    · rw [if_neg hb, if_neg (by simp)]
      dsimp only
      have hsl : streamLength ⟨P, false, false⟩ (n % MEMORY_SIZE) b =
          if (4096 * P) % MEMORY_SIZE < n % MEMORY_SIZE then
            min b (MEMORY_SIZE - n % MEMORY_SIZE)
          else
            min b ((4096 * P) % MEMORY_SIZE - n % MEMORY_SIZE) := by
        rw [streamLength, pages_shift]
      rw [hsl]
      rw [hM] at h2
      by_cases hwrap : (4096 * P) % MEMORY_SIZE < n % MEMORY_SIZE
      · -- wraparound: first dma reads up to the end of device memory
        rw [if_pos hwrap]
        rw [hM] at hwrap
        have hLpos : 0 < min b (MEMORY_SIZE - n % MEMORY_SIZE) := by
          simp only [hM]
          omega
        rw [if_pos hLpos]
        have hLd : min b (MEMORY_SIZE - n % MEMORY_SIZE) ≤ 4096 * P - n := by
          simp only [hM]
          omega
        set L := min b (MEMORY_SIZE - n % MEMORY_SIZE) with hLdef
        have hcur : (n % MEMORY_SIZE + L) % MEMORY_SIZE = (n + L) % MEMORY_SIZE := by
          simp only [hM]
          omega
        rw [hcur]
        have hchunk : (List.range L).map (fun j => devMem S (4096 * P) (n % MEMORY_SIZE + j)) =
            (List.range L).map (fun j => S (n + j)) := by
          apply List.map_congr_left
          intro j hj
          rw [List.mem_range] at hj
          have hps : n % MEMORY_SIZE + j = (n + j) % MEMORY_SIZE := by
            simp only [hM] at hLdef ⊢
            omega
          rw [hps]
          exact devMem_eq S (4096 * P) (n + j) (by omega) (by rw [hM]; omega)
        rw [hchunk]
        rw [ih (n + L) (b - L) _ _ (by omega) (by omega) (by rw [hM]; omega)]
        have hw : min (b - L) (4096 * P - (n + L)) = min b (4096 * P - n) - L := by
          simp only [hLdef, hM] at *
          omega
        rw [hw]
        have hLw : L ≤ min b (4096 * P - n) := by omega
        have hbytes : (List.range L).map (fun j => S (n + j)) ++
            (List.range (min b (4096 * P - n) - L)).map (fun j => S (n + L + j)) =
            (List.range (min b (4096 * P - n))).map (fun j => S (n + j)) :=
          range_map_splice S n L (min b (4096 * P - n)) hLw
        have hdma : ([(n % MEMORY_SIZE, L)] : List (Nat × Nat)) ++
            dmaSplit ((n + L) % MEMORY_SIZE) (min b (4096 * P - n) - L) =
            dmaSplit (n % MEMORY_SIZE) (min b (4096 * P - n)) := by
          by_cases hone : min b (4096 * P - n) ≤ MEMORY_SIZE - n % MEMORY_SIZE
          · have hLisw : L = min b (4096 * P - n) := by
              simp only [hLdef, hM] at *
              omega
            rw [show min b (4096 * P - n) - L = 0 from by omega]
            rw [show dmaSplit ((n + L) % MEMORY_SIZE) 0 = [] from by
              rw [dmaSplit, if_pos rfl]]
            rw [show dmaSplit (n % MEMORY_SIZE) (min b (4096 * P - n)) =
                [(n % MEMORY_SIZE, min b (4096 * P - n))] from by
              rw [dmaSplit, if_neg (by omega), if_pos (by simp only [hM] at *; omega)]]
            rw [hLisw]
            simp
          · have hLv : L = MEMORY_SIZE - n % MEMORY_SIZE := by
              simp only [hLdef, hM] at *
              omega
            have hzero : (n + L) % MEMORY_SIZE = 0 := by
              simp only [hLv, hM] at *
              omega
            rw [hzero]
            rw [show dmaSplit 0 (min b (4096 * P - n) - L) =
                [(0, min b (4096 * P - n) - L)] from by
              rw [dmaSplit, if_neg (by simp only [hLv, hM] at *; omega),
                if_pos (by simp only [hLv, hM] at *; omega)]]
            rw [show dmaSplit (n % MEMORY_SIZE) (min b (4096 * P - n)) =
                [(n % MEMORY_SIZE, MEMORY_SIZE - n % MEMORY_SIZE),
                 (0, min b (4096 * P - n) - (MEMORY_SIZE - n % MEMORY_SIZE))] from by
              rw [dmaSplit, if_neg (by simp only [hM] at *; omega),
                if_neg (by simp only [hM] at *; omega)]]
            rw [hLv]
            simp
        rw [List.append_assoc acc, hbytes, List.append_assoc dmas, hdma,
          show n + L + (min b (4096 * P - n) - L) = n + min b (4096 * P - n) from by
            omega]
      · -- no wraparound: a single dma up to the head
        rw [if_neg hwrap]
        rw [hM] at hwrap
        have hnd : (4096 * P) % MEMORY_SIZE - n % MEMORY_SIZE = 4096 * P - n := by
          simp only [hM]
          omega
        rw [hnd]
        by_cases hd : 0 < min b (4096 * P - n)
        · rw [if_pos hd]
          have hfit : n % MEMORY_SIZE + (4096 * P - n) < MEMORY_SIZE := by
            simp only [hM] at *
            omega
          set L := min b (4096 * P - n) with hLdef
          have hcur : (n % MEMORY_SIZE + L) % MEMORY_SIZE = (n + L) % MEMORY_SIZE := by
            simp only [hM]
            omega
          rw [hcur]
          have hchunk : (List.range L).map (fun j => devMem S (4096 * P) (n % MEMORY_SIZE + j)) =
              (List.range L).map (fun j => S (n + j)) := by
            apply List.map_congr_left
            intro j hj
            rw [List.mem_range] at hj
            have hps : n % MEMORY_SIZE + j = (n + j) % MEMORY_SIZE := by
              simp only [hM] at hfit ⊢
              omega
            rw [hps]
            exact devMem_eq S (4096 * P) (n + j) (by omega) (by rw [hM]; omega)
          rw [hchunk]
          rw [ih (n + L) (b - L) _ _ (by omega) (by omega) (by rw [hM]; omega)]
          have hw : min (b - L) (4096 * P - (n + L)) = 0 := by
            simp only [hLdef] at *
            omega
          rw [hw]
          simp only [List.range_zero, List.map_nil, List.append_nil, Nat.add_zero]
          rw [show dmaSplit ((n + L) % MEMORY_SIZE) 0 = [] from by rw [dmaSplit, if_pos rfl]]
          rw [show dmaSplit (n % MEMORY_SIZE) L =
              [(n % MEMORY_SIZE, L)] from by
            rw [dmaSplit, if_neg (by omega), if_pos (by simp only [hLdef, hM] at *; omega)]]
          simp
        · rw [if_neg hd]
          have hw0 : min b (4096 * P - n) = 0 := by omega
          rw [hw0]
          rw [show dmaSplit (n % MEMORY_SIZE) 0 = [] from by rw [dmaSplit, if_pos rfl]]
          simp

theorem pages_moved_head (st : Status) :
    st.pages_moved <<< PAGE_BITS = (4096 * st.pages) % MEMORY_SIZE := by
  obtain ⟨P, f1, f2⟩ := st
  show (P % 65536) <<< 12 = (4096 * P) % MEMORY_SIZE
  rw [Nat.shiftLeft_eq]
  rw [show ((2 : Nat) ^ 12) = 4096 from by norm_num]
  rw [show MEMORY_SIZE = 65536 * 4096 from rfl]
  rw [Nat.mul_comm 4096 P, Nat.mul_mod_mul_right]

theorem streamRead_call (S : Nat → Int) (P n b : Nat)
    (h1 : n ≤ 4096 * P) (h2 : 4096 * P < n + MEMORY_SIZE) :
    Streamer.read S ⟨P, false, false⟩ (some (n % MEMORY_SIZE)) b =
      some ((List.range (min b (4096 * P - n))).map (fun j => S (n + j)),
            dmaSplit (n % MEMORY_SIZE) (min b (4096 * P - n)),
            some ((n + min b (4096 * P - n)) % MEMORY_SIZE)) := by
  have h := readLoop_spec S P (b + 2) n b [] [] (Nat.le_refl _) h1 h2
  simpa using h

theorem streamRead_latch (S : Nat → Int) (P b : Nat) (hb : 0 < b) :
    Streamer.read S ⟨P, false, false⟩ none b =
      some ([], [], some ((4096 * P) % MEMORY_SIZE)) := by
  show readLoop S ⟨P, false, false⟩ (b + 1 + 1) none b [] [] = _
  rw [readLoop, if_neg (by omega), if_neg (by simp)]
  rw [pages_shift]
  rw [readLoop, if_neg (by omega), if_neg (by simp)]
  have hz : streamLength ⟨P, false, false⟩ ((4096 * P) % MEMORY_SIZE) b = 0 := by
    rw [streamLength, pages_shift, if_neg (by omega)]
    simp
  rw [hz]
  simp

theorem streamRead_error (S : Nat → Int) (st : Status) (cursor : Option Nat) (b : Nat)
    (hb : 0 < b) (herr : st.fifoOverflow = true ∨ st.datamoverError = true) :
    Streamer.read S st cursor b = none := by
  show readLoop S st (b + 1 + 1) cursor b [] [] = none
  cases cursor with
  | none =>
    rw [readLoop, if_neg (by omega), if_pos (by rcases herr with h | h <;> simp [h])]
  | some prev =>
    rw [readLoop, if_neg (by omega), if_pos (by rcases herr with h | h <;> simp [h])]

/-- C5 counterexample: with the device head wrapped around the 256 MiB
boundary relative to the reader cursor, a single Streamer::read call issues
two read_dma transfers (one for each side of the boundary), not one. -/
theorem streamer_single_dma_cex :
    Streamer.read (fun _ => (0 : Int)) ⟨1, false, false⟩ (some (MEMORY_SIZE - 1)) 2 =
      some ([0, 0], [(MEMORY_SIZE - 1, 1), (0, 1)], some 1) ∧
    ([(MEMORY_SIZE - 1, 1), (0, 1)] : List (Nat × Nat)).length = 2 ∧ (2 : Nat) ≠ 1 := by
  refine ⟨by decide, by decide, by decide⟩

/-- C5 amended: every call to Streamer::read reads the Status register,
treats FifoOverflow or DatamoverError as fatal (a panic, modelled `none`),
and computes the device write head as `pages_moved · 4096` (reduced modulo
the 256 MiB device memory); the first ever call (buffer non-empty, status
static) only latches the current head and returns zero bytes; every
subsequent call delivers the next `min(caller_len, head − prev_head)` bytes
of the device stream through at most two read_dma transfers — one, except
when the range wraps at the 256 MiB boundary, where the code issues one
read_dma per side of the boundary rather than a single one. -/
theorem streamer_read_call :
    (∀ (S : Nat → Int) (st : Status) (cursor : Option Nat) (b : Nat), 0 < b →
      (st.fifoOverflow = true ∨ st.datamoverError = true) →
      Streamer.read S st cursor b = none) ∧
    (∀ (st : Status),
      st.pages_moved <<< PAGE_BITS = (4096 * st.pages) % MEMORY_SIZE) ∧
    (∀ (S : Nat → Int) (P b : Nat), 0 < b →
      Streamer.read S ⟨P, false, false⟩ none b =
        some ([], [], some ((4096 * P) % MEMORY_SIZE))) ∧
    (∀ (S : Nat → Int) (P n b : Nat), n ≤ 4096 * P → 4096 * P < n + MEMORY_SIZE →
      Streamer.read S ⟨P, false, false⟩ (some (n % MEMORY_SIZE)) b =
        some ((List.range (min b (4096 * P - n))).map (fun j => S (n + j)),
              dmaSplit (n % MEMORY_SIZE) (min b (4096 * P - n)),
              some ((n + min b (4096 * P - n)) % MEMORY_SIZE))) ∧
    (∀ (prev w : Nat), (dmaSplit prev w).length ≤ 2) :=
  ⟨streamRead_error, pages_moved_head, streamRead_latch, streamRead_call,
   fun prev w => by rw [dmaSplit]; split_ifs <;> simp⟩

/-- Concrete instances of `streamer_read_call`: an error status is fatal; the
head computation; a first call latching the head at page 3; a data call
delivering 100 bytes at stream position 4096; a dma split of bounded
length. -/
theorem streamer_read_call_witness :
    (Streamer.read (fun _ => (0 : Int)) ⟨0, true, false⟩ none 1 = none) ∧
    ((⟨9, false, true⟩ : Status).pages_moved <<< PAGE_BITS =
      (4096 * 9) % MEMORY_SIZE) ∧
    (Streamer.read (fun _ => (0 : Int)) ⟨3, false, false⟩ none 5 =
      some ([], [], some ((4096 * 3) % MEMORY_SIZE))) ∧
    (Streamer.read (fun k => (k : Int)) ⟨2, false, false⟩ (some (4096 % MEMORY_SIZE)) 100 =
      some ((List.range (min 100 (4096 * 2 - 4096))).map
              (fun j => ((4096 + j : Nat) : Int)),
            dmaSplit (4096 % MEMORY_SIZE) (min 100 (4096 * 2 - 4096)),
            some ((4096 + min 100 (4096 * 2 - 4096)) % MEMORY_SIZE))) ∧
    ((dmaSplit 5 7).length ≤ 2) :=
  ⟨streamer_read_call.1 (fun _ => (0 : Int)) ⟨0, true, false⟩ none 1 (by omega)
      (Or.inl rfl),
   streamer_read_call.2.1 ⟨9, false, true⟩,
   streamer_read_call.2.2.1 (fun _ => (0 : Int)) 3 5 (by omega),
   streamer_read_call.2.2.2.1 (fun k => (k : Int)) 2 4096 100 (by omega) (by decide),
   streamer_read_call.2.2.2.2 5 7⟩

theorem finalN_ge : ∀ (calls : List (Nat × Nat)) (n : Nat), n ≤ finalN calls n := by
  intro calls
  induction calls with
  | nil =>
    intro n
    rw [finalN]
  | cons c rest ih =>
    intro n
    obtain ⟨P, b⟩ := c
    have h1 : n ≤ stepN P b n := by rw [stepN]; omega
    have h2 := ih (stepN P b n)
    rw [finalN]
    omega

theorem runCalls_spec (S : Nat → Int) :
    ∀ (calls : List (Nat × Nat)) (n : Nat), lagOK calls n →
      Streamer.runCalls S calls (some (n % MEMORY_SIZE)) =
        some ((List.range (finalN calls n - n)).map (fun j => S (n + j)),
              some (finalN calls n % MEMORY_SIZE)) := by
  intro calls
  induction calls with
  | nil =>
    intro n _
    rw [Streamer.runCalls, finalN]
    simp
  | cons c rest ih =>
    obtain ⟨P, b⟩ := c
    intro n hlag
    obtain ⟨h1, h2, h3⟩ := hlag
    rw [Streamer.runCalls, streamRead_call S P n b h1 h2]
    dsimp only
    rw [show n + min b (4096 * P - n) = stepN P b n from rfl]
    rw [ih (stepN P b n) h3]
    dsimp only
    rw [finalN]
    simp only [stepN]
    have hge := finalN_ge rest (n + min b (4096 * P - n))
    have key := range_map_splice S n (min b (4096 * P - n))
      (finalN rest (n + min b (4096 * P - n)) - n) (by omega)
    rw [show finalN rest (n + min b (4096 * P - n)) - (n + min b (4096 * P - n)) =
        finalN rest (n + min b (4096 * P - n)) - n - min b (4096 * P - n) from by
      omega]
    rw [key]

/-- C4 counterexample: the device writes a page before the streamer's first
call; the first call only latches the head, so the concatenation of bytes
delivered afterwards starts at stream offset 4096 and is not a prefix of the
device byte sequence `S = 0, 1, 2, …` even though the reader never lags by
256 MiB. -/
theorem streamer_prefix_cex :
    Streamer.runCalls (fun k => (k : Int)) [(1, 8), (2, 1)] none =
      some ([(4096 : Int)], some 4097) ∧
    (fun k => (k : Int)) 0 = 0 ∧ (4096 : Int) ≠ 0 := by
  refine ⟨by decide, rfl, by decide⟩

/-- C4 amended: for every device-side byte sequence `S` (written through the
256 MiB circular memory, the head reported in 4 KiB pages), the concatenation
of the bytes delivered by successive Streamer::read calls is the contiguous
block of `S` that starts at the head latched by the first call — with no byte
duplicated and no byte skipped — provided the reader never falls 256 MiB or
more behind the device write head; when the first call occurs before the
device has written anything (`pages_moved = 0`), this block is a prefix
of `S`. -/
theorem streamer_lossless (S : Nat → Int) (P0 b0 : Nat) (calls : List (Nat × Nat))
    (hb : 0 < b0) (hlag : lagOK calls (4096 * P0)) :
    Streamer.runCalls S ((P0, b0) :: calls) none =
      some ((List.range (finalN calls (4096 * P0) - 4096 * P0)).map
              (fun j => S (4096 * P0 + j)),
            some (finalN calls (4096 * P0) % MEMORY_SIZE)) := by
  rw [Streamer.runCalls, streamRead_latch S P0 b0 hb]
  dsimp only
  rw [runCalls_spec S calls (4096 * P0) hlag]
  dsimp only
  simp

/-- Concrete instance of `streamer_lossless`: first call latches head 0, the
second call (head at page 1) delivers the first 4096 bytes of `S`. -/
theorem streamer_lossless_witness :
    Streamer.runCalls (fun k => (k : Int)) [(0, 4), (1, 4096)] none =
      some ((List.range (finalN [(1, 4096)] (4096 * 0) - 4096 * 0)).map
              (fun j => ((4096 * 0 + j : Nat) : Int)),
            some (finalN [(1, 4096)] (4096 * 0) % MEMORY_SIZE)) :=
  streamer_lossless (fun k => (k : Int)) 0 4 [(1, 4096)] (by omega)
    ⟨by omega, by decide, trivial⟩

/-! ## Theorems: digipot offset magnitude (C10) -/

/-- C10: for every wiper code `m ∈ [0, 127]` the integer conversions
round-trip exactly (`from_ohms (ohms m) = m`), the representable resistance
stays inside `[75, 50075]` Ω, and `from_ohms` panics (modelled as `none`)
for every resistance outside `[75, 50075]` Ω. -/
theorem offsetMagnitude_roundtrip :
    (∀ m : Nat, m ≤ 127 →
      OffsetMagnitude.from_ohms (OffsetMagnitude.ohms ⟨m⟩) = some ⟨m⟩ ∧
      75 ≤ OffsetMagnitude.ohms ⟨m⟩ ∧ OffsetMagnitude.ohms ⟨m⟩ ≤ 50075) ∧
    (∀ r : Nat, r < 75 ∨ 50075 < r → OffsetMagnitude.from_ohms r = none) := by
  constructor
  · decide
  · intro r hr
    unfold OffsetMagnitude.from_ohms
    rw [if_neg]
    omega

/-- Concrete instance of `offsetMagnitude_roundtrip` at code `64` and at the
out-of-range resistance `50076` Ω. -/
theorem offsetMagnitude_roundtrip_witness :
    OffsetMagnitude.from_ohms (OffsetMagnitude.ohms ⟨64⟩) = some ⟨64⟩ ∧
    OffsetMagnitude.from_ohms 50076 = none :=
  ⟨(offsetMagnitude_roundtrip.1 64 (by decide)).1,
   offsetMagnitude_roundtrip.2 50076 (by omega)⟩

/-! ## Theorems: startup ADC initialization (C9) -/

/-- C9 counterexample: the ADC init table written by Device::startup holds
10 register pairs, not the 11 the claim states (the 11th pair, the ramp
test-mode pattern, is commented out in the source). -/
theorem startup_adc_table_cex :
    adcStartupTable.length = 10 ∧ adcStartupTable.length ≠ 11 := by
  decide

set_option maxRecDepth 8192 in
set_option maxHeartbeats 2000000 in
/-- C9 amended: for every initial Control register value `c`,
Device::startup succeeds, and the PLL/ADC register-write subsequence of its
trace is exactly the 33 PLL writes (the Rev4 blob, then the phase
alignment) followed by the 10-pair ADC init table over SPI bus 0 in the
listed order — reset, power-down, invert mask 0x7F, full-scale 0x20,
coarse-gain enable, quad-gain 0x9999, dual-gain 0x0A99, 8-bit resolution,
LVDS phase 0x0060, LVDS drive 0x0222 — followed by the five
enable_adc_channels writes issued by startup's subsequent configure call.
The init table leaves the ADC powered down: it contains no
`(ADDR_HMCAD1520_POWER, 0x0000)` pair, the only power-up write being the
one inside the configure segment. -/
theorem startup_adc_writes (c : Nat) :
    Option.map (fun d => busWrites d.trace) (Dev.startup ⟨c, []⟩) =
      some
        ((pllRev4Blob ++ pllPhaseAlign).map (fun w => (0, pllRegPacket w)) ++
          (adcStartupTable ++
            [(ADDR_HMCAD1520_POWER, 0x0200),
             (ADDR_HMCAD1520_CHNUM_CLKDIV, (2 <<< 8) ||| 4),
             (ADDR_HMCAD1520_POWER, 0x0000),
             (ADDR_HMCAD1520_INSEL12, (0x0200 <<< 2) ||| (0x0002 <<< 3)),
             (ADDR_HMCAD1520_INSEL34, (0x0200 <<< 0) ||| (0x0002 <<< 1))]).map
            (fun pr => (1, adcPacket pr))) ∧
    adcStartupTable =
      [(ADDR_HMCAD1520_RESET, 0x0001), (ADDR_HMCAD1520_POWER, 0x0200),
       (ADDR_HMCAD1520_INVERT, 0x007F), (ADDR_HMCAD1520_FS_CNTRL, 0x0020),
       (ADDR_HMCAD1520_GAIN_CFG, 0x0000), (ADDR_HMCAD1520_QUAD_GAIN, 0x9999),
       (ADDR_HMCAD1520_DUAL_GAIN, 0x0A99), (ADDR_HMCAD1520_RES_SEL, 0x0000),
       (ADDR_HMCAD1520_LVDS_PHASE, 0x0060),
       (ADDR_HMCAD1520_LVDS_DRIVE, 0x0222)] ∧
    ∀ pr ∈ adcStartupTable, pr ≠ (ADDR_HMCAD1520_POWER, 0x0000) := by
  refine ⟨?_, rfl, by decide⟩
  simp [Dev.startup, Dev.pllAlignAndAdc, Dev.configure, Dev.foldConfigCtl,
    Dev.foldDigipots, Dev.enable_adc_channels, Dev.applyAdcConfig, adcInsel,
    Dev.configure_pga, Dev.write_pga_command, Dev.configure_digipot_trimdac,
    Dev.write_digipot_input, Dev.write_trimdac_input, Dev.enable_datamover,
    Dev.disable_datamover, Dev.modify_control, Dev.write_control,
    Dev.init_adc_registers, Dev.write_adc_register, Dev.init_pll_registers,
    Dev.write_pll_register, Dev.write_i2c, Dev.write_spi, Dev.write_fifo,
    Dev.sleepFor, DeviceParameters.default, ChannelParameters.default,
    Filtering.lmh6518_code, Amplification.lmh6518_code,
    FineAttenuation.lmh6518_code, pllRev4Blob, pllPhaseAlign,
    adcStartupTable, SPI_BUS_ADC, SPI_BUS_PGA, WIPER_ADDRESS, busWrites,
    Event.busTag, pllRegPacket, adcPacket, List.enum, List.enumFrom,
    ADDR_HMCAD1520_RESET, ADDR_HMCAD1520_POWER, ADDR_HMCAD1520_INVERT,
    ADDR_HMCAD1520_FS_CNTRL, ADDR_HMCAD1520_GAIN_CFG,
    ADDR_HMCAD1520_QUAD_GAIN, ADDR_HMCAD1520_DUAL_GAIN,
    ADDR_HMCAD1520_RES_SEL, ADDR_HMCAD1520_LVDS_PHASE,
    ADDR_HMCAD1520_LVDS_DRIVE, ADDR_HMCAD1520_CHNUM_CLKDIV,
    ADDR_HMCAD1520_INSEL12, ADDR_HMCAD1520_INSEL34, Control.ChannelMux0,
    Control.ChannelMux1, Control.insert, Control.remove, List.filterMap]

end Thunderscope
